import Mathlib

/-!
# polls-and-games: the request handlers of `backend/main.go` over an explicit store

The Go program keeps all of its state in one SQLite database (`./polls.db`) with the five
tables created by `createTables`.  Here the database is a value of type `Store`; every SQL
statement of `main.go` is a function on `Store`, and every handler is a function from the
store and the decoded request to the new store and the response.

Conventions of the embedding:

* a table is the list of its rows in rowid order; `id INTEGER PRIMARY KEY AUTOINCREMENT`
  is assigned by `nextRowid` from the table and its `sqlite_sequence` counter (the rowid
  space is never exhausted);
* `CURRENT_TIMESTAMP` is the argument `now` of the handler (seconds);
* Go `int` is a 64-bit two's-complement integer: arithmetic that can leave the range is
  wrapped by `wrapInt`;
* a SQL statement is atomic and fails only through a constraint of the schema, except in
  `createPollHandler`, whose rollback paths are exercised through a fault oracle for its
  inserts (`db.Begin()` and `tx.Commit()` are taken to succeed);
* the `FOREIGN KEY` clauses of the schema are modelled together with the switch that
  decides whether SQLite enforces them (`foreignKeys`);
* `enableCORS` and the JSON plumbing are left out: a handler receives the result of
  `json.NewDecoder(r.Body).Decode(&req)` and returns a `Response`;
* a path or query parameter that is an id is given as the integer it denotes.
-/

namespace PollsAndGames

/-! ## The schema (`createTables`) -/

/-- Row of `users`. -/
structure UserRow where
  id : Int
  username : String
  email : String
  password : String
  created_at : Nat
deriving DecidableEq, Repr

/-- Row of `polls`. -/
structure PollRow where
  id : Int
  title : String
  description : String
  user_id : Int
  created_at : Nat
deriving DecidableEq, Repr

/-- Row of `options`. -/
structure OptionRow where
  id : Int
  poll_id : Int
  text : String
deriving DecidableEq, Repr

/-- Row of `votes`. -/
structure VoteRow where
  id : Int
  user_id : Int
  poll_id : Int
  option_id : Int
  created_at : Nat
deriving DecidableEq, Repr

/-- Row of `bookmarks`. -/
structure BookmarkRow where
  id : Int
  user_id : Int
  poll_id : Int
  created_at : Nat
deriving DecidableEq, Repr

/-- The `sqlite_sequence` bookkeeping table that SQLite keeps for AUTOINCREMENT columns:
the largest rowid ever handed out, per table. -/
structure Sequences where
  users : Int
  polls : Int
  options : Int
  votes : Int
  bookmarks : Int
deriving DecidableEq, Repr

/-- The database behind the global `db` handle: the five tables and the AUTOINCREMENT
counters. -/
structure Store where
  users : List UserRow
  polls : List PollRow
  options : List OptionRow
  votes : List VoteRow
  bookmarks : List BookmarkRow
  seq : Sequences
deriving DecidableEq, Repr

/-- A fresh `polls.db` after `initDB`: `createTables` has created five empty tables. -/
def initDB : Store :=
  { users := [], polls := [], options := [], votes := [], bookmarks := [],
    seq := { users := 0, polls := 0, options := 0, votes := 0, bookmarks := 0 } }

/-- Foreign-key enforcement of the connection opened by `initDB`.  The connection is
opened with `sql.Open("sqlite3", "./polls.db")`: the data source name carries no
`_foreign_keys` parameter and no `PRAGMA foreign_keys = ON` is ever executed, and SQLite
parses but does not enforce `FOREIGN KEY ... REFERENCES ... ON DELETE CASCADE` clauses
unless enforcement is switched on for the connection. -/
def foreignKeys : Bool := false

/-- Largest id of a table (0 for an empty table). -/
def maxId (ids : List Int) : Int := ids.foldr max 0

/-- The rowid chosen for an `INTEGER PRIMARY KEY AUTOINCREMENT` column: one more than the
largest rowid that is or ever was in the table. -/
def nextRowid (seq : Int) (ids : List Int) : Int := max seq (maxId ids) + 1

/-! ## Go types of `main.go` -/

/-- Go `type User struct`: the JSON record of a user.  `CreatedAt` is the empty string
when the field is never assigned. -/
structure User where
  ID : Int
  Username : String
  Email : String
  CreatedAt : String
deriving DecidableEq, Repr

/-- Go `type Option struct` (renamed, `Option` being taken). -/
structure PollOption where
  ID : Int
  PollID : Int
  Text : String
  VoteCount : Int
deriving DecidableEq, Repr

/-- Go `type Poll struct`; `CreatedAt` is the stored timestamp, `none` while unassigned. -/
structure Poll where
  ID : Int
  Title : String
  Description : String
  UserID : Int
  Username : String
  CreatedAt : Option Nat
  Options : List PollOption
  VoteCount : Int
deriving DecidableEq, Repr

/-- The field names `json.NewEncoder(w).Encode(user)` writes for a `User`, from the
struct tags. -/
def User.jsonFields (u : User) : List (String × String) :=
  [("id", toString u.ID), ("username", u.Username), ("email", u.Email),
   ("created_at", u.CreatedAt)]

/-- HTTP methods the router lets through. -/
inductive Method where
  | GET
  | POST
  | DELETE
  | OPTIONS
deriving DecidableEq, Repr

/-- What a handler writes: nothing but the status line (`plain`), `sendError`, or one of
the JSON bodies. -/
inductive Response where
  | plain (status : Nat)
  | error (status : Nat) (message : String)
  | user (u : User)
  | poll (p : Poll)
  | polls (polls : List Poll) (total : Int) (page : Int) (limit : Int)
  | message (m : String)
deriving DecidableEq, Repr

/-! ## Request bodies -/

/-- Body of `POST /api/register`. -/
structure RegisterReq where
  username : String
  email : String
  password : String
deriving DecidableEq, Repr

/-- Body of `POST /api/polls`. -/
structure CreatePollReq where
  user_id : Int
  title : String
  description : String
  options : List String
deriving DecidableEq, Repr

/-- Body of `POST /api/vote`. -/
structure VoteReq where
  user_id : Int
  poll_id : Int
  option_id : Int
deriving DecidableEq, Repr

/-- Body of `POST/DELETE /api/bookmark`. -/
structure BookmarkReq where
  user_id : Int
  poll_id : Int
deriving DecidableEq, Repr

/-! ## SQL statements -/

/-- Whether `users` has a row with this id. -/
def hasUser (s : Store) (id : Int) : Bool := s.users.any (fun u => u.id == id)

/-- Whether `polls` has a row with this id. -/
def hasPoll (s : Store) (id : Int) : Bool := s.polls.any (fun p => p.id == id)

/-- Whether `options` has a row with this id. -/
def hasOption (s : Store) (id : Int) : Bool := s.options.any (fun o => o.id == id)

/-- `INSERT INTO users (username, email, password) VALUES (?, ?, ?)`: fails on
`username TEXT UNIQUE` or `email TEXT UNIQUE`; returns the store and `LastInsertId`. -/
def insertUser (s : Store) (username email password : String) (now : Nat) :
    Except String (Store × Int) :=
  if s.users.any (fun u => u.username == username) then
    .error "UNIQUE constraint failed: users.username"
  else if s.users.any (fun u => u.email == email) then
    .error "UNIQUE constraint failed: users.email"
  else
    let id := nextRowid s.seq.users (s.users.map (fun u => u.id))
    .ok ({ s with
            users := s.users ++ [{ id := id, username := username, email := email,
                                   password := password, created_at := now }],
            seq := { s.seq with users := id } }, id)

/-- `INSERT INTO polls (title, description, user_id) VALUES (?, ?, ?)`. -/
def insertPoll (fk : Bool) (s : Store) (title description : String) (user_id : Int)
    (now : Nat) : Except String (Store × Int) :=
  if fk && !hasUser s user_id then
    .error "FOREIGN KEY constraint failed"
  else
    let id := nextRowid s.seq.polls (s.polls.map (fun p => p.id))
    .ok ({ s with
            polls := s.polls ++ [{ id := id, title := title, description := description,
                                   user_id := user_id, created_at := now }],
            seq := { s.seq with polls := id } }, id)

/-- `INSERT INTO options (poll_id, text) VALUES (?, ?)`. -/
def insertOption (fk : Bool) (s : Store) (poll_id : Int) (text : String) :
    Except String (Store × Int) :=
  if fk && !hasPoll s poll_id then
    .error "FOREIGN KEY constraint failed"
  else
    let id := nextRowid s.seq.options (s.options.map (fun o => o.id))
    .ok ({ s with
            options := s.options ++ [{ id := id, poll_id := poll_id, text := text }],
            seq := { s.seq with options := id } }, id)

/-- `SELECT id FROM votes WHERE user_id = ? AND poll_id = ?` read with `QueryRow`: the
first matching row, if any. -/
def selectVoteId (s : Store) (user_id poll_id : Int) : Option Int :=
  (s.votes.find? (fun v => v.user_id == user_id && v.poll_id == poll_id)).map (fun v => v.id)

/-- `UPDATE votes SET option_id = ? WHERE user_id = ? AND poll_id = ?`. -/
def updateVote (fk : Bool) (s : Store) (option_id user_id poll_id : Int) :
    Except String Store :=
  if fk && s.votes.any (fun v => v.user_id == user_id && v.poll_id == poll_id)
      && !hasOption s option_id then
    .error "FOREIGN KEY constraint failed"
  else
    .ok { s with
          votes := s.votes.map (fun v =>
            if v.user_id == user_id && v.poll_id == poll_id then
              { v with option_id := option_id } else v) }

/-- `INSERT INTO votes (user_id, poll_id, option_id) VALUES (?, ?, ?)`: fails on
`UNIQUE(user_id, poll_id)`. -/
def insertVote (fk : Bool) (s : Store) (user_id poll_id option_id : Int) (now : Nat) :
    Except String (Store × Int) :=
  if s.votes.any (fun v => v.user_id == user_id && v.poll_id == poll_id) then
    .error "UNIQUE constraint failed: votes.user_id, votes.poll_id"
  else if fk && !(hasUser s user_id && hasPoll s poll_id && hasOption s option_id) then
    .error "FOREIGN KEY constraint failed"
  else
    let id := nextRowid s.seq.votes (s.votes.map (fun v => v.id))
    .ok ({ s with
            votes := s.votes ++ [{ id := id, user_id := user_id, poll_id := poll_id,
                                   option_id := option_id, created_at := now }],
            seq := { s.seq with votes := id } }, id)

/-- `INSERT OR IGNORE INTO bookmarks (user_id, poll_id) VALUES (?, ?)`: a row that
violates `UNIQUE(user_id, poll_id)` is skipped without an error.  The rowid drawn for
the skipped row is still recorded in `sqlite_sequence` (SQLite: "the ROWID of the failed
insertion attempt might not be reused"); no table row changes. -/
def insertOrIgnoreBookmark (fk : Bool) (s : Store) (user_id poll_id : Int) (now : Nat) :
    Except String Store :=
  let id := nextRowid s.seq.bookmarks (s.bookmarks.map (fun b => b.id))
  if s.bookmarks.any (fun b => b.user_id == user_id && b.poll_id == poll_id) then
    .ok { s with seq := { s.seq with bookmarks := id } }
  else if fk && !(hasUser s user_id && hasPoll s poll_id) then
    .error "FOREIGN KEY constraint failed"
  else
    .ok { s with
          bookmarks := s.bookmarks ++ [{ id := id, user_id := user_id, poll_id := poll_id,
                                         created_at := now }],
          seq := { s.seq with bookmarks := id } }

/-- `DELETE FROM bookmarks WHERE user_id = ? AND poll_id = ?`. -/
def deleteBookmark (s : Store) (user_id poll_id : Int) : Store :=
  { s with
    bookmarks := s.bookmarks.filter (fun b => !(b.user_id == user_id && b.poll_id == poll_id)) }

/-- `DELETE FROM polls WHERE id = ?`.  With foreign keys enforced the `ON DELETE CASCADE`
clauses of `options`, `votes` and `bookmarks` remove the dependent rows (and the votes of
the removed options); without enforcement only the `polls` row goes. -/
def deletePoll (fk : Bool) (s : Store) (id : Int) : Store :=
  if fk then
    let gone := (s.options.filter (fun o => o.poll_id == id)).map (fun o => o.id)
    { s with
      polls := s.polls.filter (fun p => !(p.id == id)),
      options := s.options.filter (fun o => !(o.poll_id == id)),
      votes := s.votes.filter (fun v => !(v.poll_id == id) && !(gone.contains v.option_id)),
      bookmarks := s.bookmarks.filter (fun b => !(b.poll_id == id)) }
  else
    { s with polls := s.polls.filter (fun p => !(p.id == id)) }

/-! ## Handlers -/

/-- `registerHandler`.  `hashed` is the result of
`bcrypt.GenerateFromPassword([]byte(req.Password), bcrypt.DefaultCost)` for this call. -/
def registerHandler (s : Store) (m : Method) (body : Except String RegisterReq)
    (hashed : Except String String) (now : Nat) : Store × Response :=
  if m = Method.OPTIONS then (s, .plain 200) else
  match body with
  | .error e => (s, .error 400 e)
  | .ok req =>
    match hashed with
    | .error e => (s, .error 500 e)
    | .ok hashedPassword =>
      match insertUser s req.username req.email hashedPassword now with
      | .error _ => (s, .error 409 "Username or email already exists")
      | .ok (s', userID) =>
        (s', .user { ID := userID, Username := req.username, Email := req.email,
                     CreatedAt := "" })

/-- Go `int` arithmetic: the result is reduced to the 64-bit two's-complement range. -/
def wrapInt (x : Int) : Int :=
  (x + 9223372036854775808) % 18446744073709551616 - 9223372036854775808

/-- `ORDER BY p.created_at DESC` over the polls (taken in rowid order; SQL leaves the
order of rows with equal timestamps open, here they keep their rowid order). -/
def orderByCreatedAtDesc (rows : List PollRow) : List PollRow :=
  rows.insertionSort (fun a b => b.created_at ≤ a.created_at)

/-- One result row of the `SELECT` of `getPollsHandler`; `username` is NULL when the
`LEFT JOIN users` finds no owner. -/
structure PollSummaryRow where
  id : Int
  title : String
  description : String
  user_id : Int
  created_at : Nat
  username : Option String
  vote_count : Int
deriving DecidableEq, Repr

/-- The select list of the query of `getPollsHandler` for the group of one poll:
`u.username` from `LEFT JOIN users u ON p.user_id = u.id` and `COUNT(DISTINCT v.id)` over
`LEFT JOIN votes v ON p.id = v.poll_id`. -/
def summaryRow (s : Store) (p : PollRow) : PollSummaryRow :=
  { id := p.id, title := p.title, description := p.description, user_id := p.user_id,
    created_at := p.created_at,
    username := (s.users.find? (fun u => u.id == p.user_id)).map (fun u => u.username),
    vote_count := (((s.votes.filter (fun v => v.poll_id == p.id)).map
      (fun v => v.id)).dedup.length : Nat) }

/-- The `SELECT ... FROM polls p LEFT JOIN users u ... LEFT JOIN votes v ... GROUP BY p.id
ORDER BY p.created_at DESC` of `getPollsHandler`, before `LIMIT`/`OFFSET`.  `p.id` is the
primary key, so a group is one poll. -/
def selectPollSummaries (s : Store) : List PollSummaryRow :=
  (orderByCreatedAtDesc s.polls).map (summaryRow s)

/-- `LIMIT ? OFFSET ?`: SQLite reads a negative offset as 0 and a negative limit as no
limit. -/
def limitOffset {α : Type} (limit offset : Int) (rows : List α) : List α :=
  let rest := rows.drop offset.toNat
  if limit < 0 then rest else rest.take limit.toNat

/-- `rows.Scan(&poll.ID, ..., &poll.Username, &poll.VoteCount)`: scanning a NULL
`username` into a Go `string` is an error. -/
def scanPollSummary (r : PollSummaryRow) : Option Poll :=
  match r.username with
  | none => none
  | some name =>
    some { ID := r.id, Title := r.title, Description := r.description, UserID := r.user_id,
           Username := name, CreatedAt := some r.created_at, Options := [],
           VoteCount := r.vote_count }

/-- `SELECT id, text FROM options WHERE poll_id = ?` scanned into `Option` values. -/
def selectOptionIdText (s : Store) (poll_id : Int) : List PollOption :=
  (s.options.filter (fun o => o.poll_id == poll_id)).map (fun o =>
    { ID := o.id, PollID := 0, Text := o.text, VoteCount := 0 })

/-- Body of the `for rows.Next()` loop of `getPollsHandler`: scan the row (`continue` on
an error) and append the options of the poll. -/
def scanPollWithOptions (s : Store) (r : PollSummaryRow) : Option Poll :=
  (scanPollSummary r).map (fun poll =>
    { poll with Options := poll.Options ++ selectOptionIdText s poll.ID })

/-- `getPollsHandler`.  `pageParam` is what `strconv.Atoi(r.URL.Query().Get("page"))`
returns, a Go `int`: the number written, 0 for an absent or non-numeric parameter (the
error of `Atoi` is dropped). -/
def getPollsHandler (s : Store) (pageParam : Int) : Response :=
  let page := if pageParam < 1 then 1 else pageParam
  let limit : Int := 10
  let offset := wrapInt ((page - 1) * limit)
  let rows := limitOffset limit offset (selectPollSummaries s)
  let polls := rows.filterMap (scanPollWithOptions s)
  .polls polls s.polls.length page limit

/-- The options query of `getPollHandler`: `SELECT o.id, o.text, COUNT(v.id) FROM options o
LEFT JOIN votes v ON o.id = v.option_id WHERE o.poll_id = ? GROUP BY o.id` (`o.id` is the
primary key, so a group is one option). -/
def selectOptionsWithCounts (s : Store) (poll_id : Int) : List PollOption :=
  (s.options.filter (fun o => o.poll_id == poll_id)).map (fun o =>
    { ID := o.id, PollID := 0, Text := o.text,
      VoteCount := ((s.votes.filter (fun v => v.option_id == o.id)).length : Nat) })

/-- `getPollHandler`.  `pollID` is the number the path segment `id` denotes.  `QueryRow`
takes the first row; a missing row and a NULL `username` both make `Scan` fail. -/
def getPollHandler (s : Store) (pollID : Int) : Response :=
  match s.polls.find? (fun p => p.id == pollID) with
  | none => .error 404 "Poll not found"
  | some p =>
    match s.users.find? (fun u => u.id == p.user_id) with
    | none => .error 404 "Poll not found"
    | some u =>
      .poll { ID := p.id, Title := p.title, Description := p.description,
              UserID := p.user_id, Username := u.username, CreatedAt := some p.created_at,
              Options := selectOptionsWithCounts s pollID,
              VoteCount := ((s.votes.filter (fun v => v.poll_id == pollID)).length : Nat) }

/-- The `for _, optionText := range req.Options` loop of `createPollHandler`, run inside
the transaction `tx`.  `k` numbers the statements of the transaction; `fault k = some e`
makes statement `k` return the error `e`. -/
def insertOptions (fault : Nat → Option String) (pollID : Int) :
    List String → Nat → Store → Except String Store
  | [], _, tx => .ok tx
  | optionText :: rest, k, tx =>
    match fault k with
    | some e => .error e
    | none =>
      match insertOption foreignKeys tx pollID optionText with
      | .error e => .error e
      | .ok (tx', _) => insertOptions fault pollID rest (k + 1) tx'

/-- The re-fetch at the end of `createPollHandler`; the error of `Scan` is dropped, so
the fields before a NULL `username` are filled and the rest keep their zero values. -/
def refetchPoll (s : Store) (pollID : Int) : Poll :=
  match s.polls.find? (fun p => p.id == pollID) with
  | none =>
    { ID := 0, Title := "", Description := "", UserID := 0, Username := "",
      CreatedAt := none, Options := [], VoteCount := 0 }
  | some p =>
    { ID := p.id, Title := p.title, Description := p.description, UserID := p.user_id,
      Username := match s.users.find? (fun u => u.id == p.user_id) with
        | none => ""
        | some u => u.username,
      CreatedAt := some p.created_at, Options := [], VoteCount := 0 }

/-- `createPollHandler`.  The statements between `db.Begin()` and `tx.Commit()` work on a
copy `tx` of the store; `tx.Rollback()` answers with the store as it was, `tx.Commit()`
with the copy.  Statement 0 is the poll insert, statement `i + 1` the insert of option
`i`; `fault` says which of them the database fails. -/
def createPollHandler (s : Store) (m : Method) (body : Except String CreatePollReq)
    (fault : Nat → Option String) (now : Nat) : Store × Response :=
  if m = Method.OPTIONS then (s, .plain 200) else
  match body with
  | .error e => (s, .error 400 e)
  | .ok req =>
    match fault 0 with
    | some e => (s, .error 500 e)
    | none =>
      match insertPoll foreignKeys s req.title req.description req.user_id now with
      | .error e => (s, .error 500 e)
      | .ok (tx, pollID) =>
        match insertOptions fault pollID req.options 1 tx with
        | .error e => (s, .error 500 e)
        | .ok tx' => (tx', .poll (refetchPoll tx' pollID))

/-- First half of `voteHandler`: `err == nil` after the `SELECT id FROM votes ...`. -/
def voteCheck (s : Store) (req : VoteReq) : Bool :=
  (selectVoteId s req.user_id req.poll_id).isSome

/-- Second half of `voteHandler`: the `UPDATE` when the check found a vote, the `INSERT`
otherwise, and the answer. -/
def voteWrite (s : Store) (req : VoteReq) (existing : Bool) (now : Nat) :
    Store × Response :=
  let r : Except String Store :=
    if existing then updateVote foreignKeys s req.option_id req.user_id req.poll_id
    else (insertVote foreignKeys s req.user_id req.poll_id req.option_id now).map Prod.fst
  match r with
  | .error e => (s, .error 500 e)
  | .ok s' => (s', .message "Vote recorded")

/-- `voteHandler`: check, then write. -/
def voteHandler (s : Store) (m : Method) (body : Except String VoteReq) (now : Nat) :
    Store × Response :=
  if m = Method.OPTIONS then (s, .plain 200) else
  match body with
  | .error e => (s, .error 400 e)
  | .ok req => voteWrite s req (voteCheck s req) now

/-- `bookmarkHandler`: `POST` bookmarks, `DELETE` unbookmarks; any other method writes
nothing. -/
def bookmarkHandler (s : Store) (m : Method) (body : Except String BookmarkReq)
    (now : Nat) : Store × Response :=
  if m = Method.OPTIONS then (s, .plain 200) else
  match body with
  | .error e => (s, .error 400 e)
  | .ok req =>
    if m = Method.POST then
      match insertOrIgnoreBookmark foreignKeys s req.user_id req.poll_id now with
      | .error e => (s, .error 500 e)
      | .ok s' => (s', .message "Bookmarked")
    else if m = Method.DELETE then
      (deleteBookmark s req.user_id req.poll_id, .message "Unbookmarked")
    else (s, .plain 200)

/-- `deletePollHandler`.  `pollID` is the number the path segment `id` denotes. -/
def deletePollHandler (s : Store) (m : Method) (pollID : Int) : Store × Response :=
  if m = Method.OPTIONS then (s, .plain 200) else
  (deletePoll foreignKeys s pollID, .message "Poll deleted")

/-! ## Sequences of requests -/

/-- One request to a mutating route, with what the environment supplies for it (decoded
body, bcrypt result, database faults, clock). -/
inductive Call where
  | register (m : Method) (body : Except String RegisterReq)
      (hashed : Except String String) (now : Nat)
  | createPoll (m : Method) (body : Except String CreatePollReq)
      (fault : Nat → Option String) (now : Nat)
  | vote (m : Method) (body : Except String VoteReq) (now : Nat)
  | bookmark (m : Method) (body : Except String BookmarkReq) (now : Nat)
  | deletePoll (m : Method) (pollID : Int)

/-- The router: each call goes to its handler. -/
def Call.handle (s : Store) : Call → Store × Response
  | .register m body hashed now => registerHandler s m body hashed now
  | .createPoll m body fault now => createPollHandler s m body fault now
  | .vote m body now => voteHandler s m body now
  | .bookmark m body now => bookmarkHandler s m body now
  | .deletePoll m pollID => deletePollHandler s m pollID

/-- The store after a sequence of requests handled one at a time. -/
def runCalls (s : Store) (calls : List Call) : Store :=
  calls.foldl (fun st c => (c.handle st).1) s

/-! ## Concurrent vote requests

Each request runs `voteHandler` on a worker of its own; the database executes one
statement at a time.  A vote request in flight is therefore in one of three phases, and
an interleaving is the order in which the workers take their next step. -/

/-- Where a vote request is: body decoded, existence check done, or answered. -/
inductive VotePhase where
  | decoded
  | checked (existing : Bool)
  | answered (r : Response)
deriving DecidableEq, Repr

/-- A vote request in flight. -/
structure VoteTask where
  req : VoteReq
  phase : VotePhase
deriving DecidableEq, Repr

/-- A vote request whose body has just been decoded. -/
def VoteTask.start (req : VoteReq) : VoteTask := { req := req, phase := .decoded }

/-- The next statement of a vote request: the `SELECT` (`voteCheck`), then the write
chosen from its result (`voteWrite`); an answered request does nothing more. -/
def VoteTask.step (s : Store) (t : VoteTask) (now : Nat) : Store × VoteTask :=
  match t.phase with
  | .decoded => (s, { t with phase := .checked (voteCheck s t.req) })
  | .checked existing =>
    ((voteWrite s t.req existing now).1,
     { t with phase := .answered (voteWrite s t.req existing now).2 })
  | .answered _ => (s, t)

/-- The database together with the vote requests in flight. -/
structure World where
  store : Store
  tasks : List VoteTask
deriving DecidableEq, Repr

/-- Worker `i` takes its next step at time `now` (no such worker: nothing happens). -/
def World.step (w : World) (i : Nat) (now : Nat) : World :=
  match w.tasks[i]? with
  | none => w
  | some t =>
    { store := (t.step w.store now).1, tasks := w.tasks.set i (t.step w.store now).2 }

/-- An interleaving: the workers step in the order of the schedule. -/
def World.run (w : World) : List (Nat × Nat) → World
  | [] => w
  | (i, now) :: rest => (w.step i now).run rest

/-! ## Schema constraints and views used in the statements -/

/-- `UNIQUE(user_id, poll_id)` of `votes`. -/
def votesUnique (s : Store) : Prop :=
  (s.votes.map (fun v => (v.user_id, v.poll_id))).Nodup

/-- `UNIQUE(user_id, poll_id)` of `bookmarks`. -/
def bookmarksUnique (s : Store) : Prop :=
  (s.bookmarks.map (fun b => (b.user_id, b.poll_id))).Nodup

/-- `id INTEGER PRIMARY KEY` of `options`. -/
def optionsPK (s : Store) : Prop := (s.options.map (fun o => o.id)).Nodup

/-- `id INTEGER PRIMARY KEY` of `votes`. -/
def votesPK (s : Store) : Prop := (s.votes.map (fun v => v.id)).Nodup

/-- The vote rows of user `u` on poll `p`. -/
def votesFor (s : Store) (u p : Int) : List VoteRow :=
  s.votes.filter (fun v => v.user_id == u && v.poll_id == p)

/-- The bookmark rows of user `u` on poll `p`. -/
def bookmarksFor (s : Store) (u p : Int) : List BookmarkRow :=
  s.bookmarks.filter (fun b => b.user_id == u && b.poll_id == p)

/-- Two stores hold the same rows in each of the five tables. -/
def sameTables (a b : Store) : Prop :=
  a.users = b.users ∧ a.polls = b.polls ∧ a.options = b.options ∧ a.votes = b.votes ∧
    a.bookmarks = b.bookmarks

/-- The polls a `ListPolls` response carries (none for any other response). -/
def Response.listed : Response → List Poll
  | .polls ps _ _ _ => ps
  | _ => []

/-- The uniqueness constraints of the schema that the statements refer to. -/
def schemaOK (s : Store) : Prop :=
  votesUnique s ∧ votesPK s ∧ bookmarksUnique s ∧ optionsPK s

/-! ## Sample environments and request sequences -/

/-- A database that fails no statement. -/
def noFault : Nat → Option String := fun _ => none

/-- Registration of alice (who gets user id 1 on a fresh database). -/
def registerAlice : Call :=
  .register .POST (.ok { username := "alice", email := "alice@example.org",
                         password := "correct horse" }) (.ok "$2a$10$hashA") 100

/-- Alice creates a poll with the options A and B. -/
def createLunchPoll : Call :=
  .createPoll .POST (.ok { user_id := 1, title := "Lunch?", description := "",
                           options := ["A", "B"] }) noFault 200

/-- Alice votes on poll 1 for option 1. -/
def aliceVotes : Call :=
  .vote .POST (.ok { user_id := 1, poll_id := 1, option_id := 1 }) 300

/-- Alice registers, creates the poll and votes on it. -/
def pollWithVote : Store := runCalls initDB [registerAlice, createLunchPoll, aliceVotes]

/-- Alice registers and creates `n` polls, one per second. -/
def manyPolls (n : Nat) : Store :=
  runCalls initDB (registerAlice :: (List.range n).map (fun i =>
    Call.createPoll .POST (.ok { user_id := 1, title := "Poll", description := "",
                                 options := ["yes", "no"] }) noFault (200 + i)))

/-- A poll is created for user id 7 on a fresh database, where nobody is registered. -/
def ownerlessPoll : Store :=
  runCalls initDB [.createPoll .POST (.ok { user_id := 7, title := "Orphan",
                                            description := "", options := ["x"] }) noFault 200]

/-- Alice registers and creates the poll; nobody has voted. -/
def pollNoVote : Store := runCalls initDB [registerAlice, createLunchPoll]

/-- Two vote requests of alice on poll 1 (for option 1 and for option 2) in flight at once
on a store where she has not voted. -/
def racingVotes : World :=
  { store := pollNoVote,
    tasks := [ { user_id := 1, poll_id := 1, option_id := 1 },
               { user_id := 1, poll_id := 1, option_id := 2 } ].map VoteTask.start }

/-- The interleaving in which both requests run their existence check before either
writes. -/
def checkCheckWriteWrite : List (Nat × Nat) := [(0, 300), (1, 300), (0, 301), (1, 301)]

/-- Alice registers and votes on poll 1 while the polls table is still empty. -/
def voteOnly : Store := runCalls initDB [registerAlice, aliceVotes]

/-- The body of alice's poll. -/
def lunchReq : CreatePollReq :=
  { user_id := 1, title := "Lunch?", description := "", options := ["A", "B"] }

/-- A registration of bob whose body decodes and whose password is 73 bytes long. -/
def longPasswordReq : RegisterReq :=
  { username := "bob", email := "bob@example.org",
    password := "0123456789012345678901234567890123456789012345678901234567890123456789012" }

/-- The same body with the username alice, which is taken once alice has registered. -/
def longPasswordTakenReq : RegisterReq :=
  { longPasswordReq with username := "alice" }

/-- What `bcrypt.GenerateFromPassword` returns for a password of more than 72 bytes. -/
def bcryptTooLong : Except String String :=
  .error "bcrypt: password length exceeds 72 bytes"

/-! ## Generic facts about tables -/

theorem filter_length_le_one_of_nodup_key {α κ : Type} (f : α → κ) (p : α → Bool) (k : κ)
    (hp : ∀ a, p a = true → f a = k) :
    ∀ l : List α, (l.map f).Nodup → (l.filter p).length ≤ 1
  | [], _ => by simp
  | a :: l, h => by
    rw [List.map_cons, List.nodup_cons] at h
    have ih := filter_length_le_one_of_nodup_key f p k hp l h.2
    by_cases hpa : p a = true
    · have hnil : l.filter p = [] := by
        rw [List.filter_eq_nil_iff]
        intro b hb hpb
        apply h.1
        rw [hp a hpa, ← hp b hpb]
        exact List.mem_map_of_mem f hb
      simp [List.filter_cons, hpa, hnil]
    · simp [List.filter_cons, hpa, ih]

theorem filter_eq_singleton_of_any {α : Type} (p : α → Bool) (l : List α)
    (hany : l.any p = true) (hle : (l.filter p).length ≤ 1) : ∃ a, l.filter p = [a] := by
  rcases hfl : l.filter p with _ | ⟨a, _ | ⟨b, t⟩⟩
  · rw [List.filter_eq_nil_iff] at hfl
    rw [List.any_eq_true] at hany
    obtain ⟨x, hx, hpx⟩ := hany
    exact absurd hpx (hfl x hx)
  · exact ⟨a, rfl⟩
  · rw [hfl] at hle
    simp at hle

/-! ## Voting -/

theorem voteCheck_eq_any (s : Store) (req : VoteReq) :
    voteCheck s req
      = s.votes.any (fun v => v.user_id == req.user_id && v.poll_id == req.poll_id) := by
  unfold voteCheck selectVoteId
  rw [Bool.eq_iff_iff]
  simp

theorem voteWrite_existing (s : Store) (req : VoteReq) (now : Nat) :
    voteWrite s req true now
      = ({ s with votes := s.votes.map (fun v =>
            if v.user_id == req.user_id && v.poll_id == req.poll_id then
              { v with option_id := req.option_id } else v) },
         Response.message "Vote recorded") := by
  simp [voteWrite, updateVote, foreignKeys]

theorem voteWrite_fresh (s : Store) (req : VoteReq) (now : Nat)
    (h : s.votes.any (fun v => v.user_id == req.user_id && v.poll_id == req.poll_id) = false) :
    voteWrite s req false now
      = ({ s with
            votes := s.votes ++ [{ id := nextRowid s.seq.votes (s.votes.map (fun v => v.id)),
                                   user_id := req.user_id, poll_id := req.poll_id,
                                   option_id := req.option_id, created_at := now }],
            seq := { s.seq with
                     votes := nextRowid s.seq.votes (s.votes.map (fun v => v.id)) } },
         Response.message "Vote recorded") := by
  simp only [voteWrite, insertVote, foreignKeys, h]
  rfl

theorem voteWrite_conflict (s : Store) (req : VoteReq) (now : Nat)
    (h : s.votes.any (fun v => v.user_id == req.user_id && v.poll_id == req.poll_id) = true) :
    voteWrite s req false now
      = (s, Response.error 500 "UNIQUE constraint failed: votes.user_id, votes.poll_id") := by
  simp only [voteWrite, insertVote, foreignKeys, h]
  rfl

theorem updateVote_keys (u p o : Int) (l : List VoteRow) :
    (l.map (fun v => if v.user_id == u && v.poll_id == p then
        { v with option_id := o } else v)).map (fun v => (v.user_id, v.poll_id))
      = l.map (fun v => (v.user_id, v.poll_id)) := by
  rw [List.map_map]
  apply List.map_congr_left
  intro v _
  simp only [Function.comp]
  split <;> rfl

theorem filter_map_update {α : Type} (p : α → Bool) (g : α → α)
    (hg : ∀ a, p (g a) = p a) :
    ∀ l : List α, (l.map (fun a => if p a then g a else a)).filter p = (l.filter p).map g
  | [] => rfl
  | a :: l => by
    have ih := filter_map_update p g hg l
    cases h : p a with
    | true => simp [List.filter_cons, h, hg, ih]
    | false => simp [List.filter_cons, h, ih]

theorem updateVote_filter (u p o : Int) (l : List VoteRow) :
    (l.map (fun v => if v.user_id == u && v.poll_id == p then
        { v with option_id := o } else v)).filter
        (fun v => v.user_id == u && v.poll_id == p)
      = (l.filter (fun v => v.user_id == u && v.poll_id == p)).map
          (fun v => { v with option_id := o }) :=
  filter_map_update (fun v : VoteRow => v.user_id == u && v.poll_id == p)
    (fun v => { v with option_id := o }) (fun _ => rfl) l

theorem votesUnique_voteWrite (s : Store) (req : VoteReq) (existing : Bool) (now : Nat)
    (h : votesUnique s) : votesUnique (voteWrite s req existing now).1 := by
  cases existing with
  | true =>
    rw [voteWrite_existing]
    unfold votesUnique at *
    simpa only [updateVote_keys] using h
  | false =>
    cases hany : s.votes.any
        (fun v => v.user_id == req.user_id && v.poll_id == req.poll_id) with
    | true => rw [voteWrite_conflict s req now hany]; exact h
    | false =>
      rw [voteWrite_fresh s req now hany]
      unfold votesUnique at *
      simp only [List.map_append, List.map_cons, List.map_nil]
      rw [List.nodup_append]
      refine ⟨h, List.nodup_singleton _, ?_⟩
      intro x hmem hx
      rw [List.mem_singleton] at hx
      subst hx
      rw [List.mem_map] at hmem
      obtain ⟨v, hv, hkey⟩ := hmem
      have hfalse := (List.any_eq_false.mp hany) v hv
      simp only [Prod.mk.injEq] at hkey
      simp [hkey.1, hkey.2] at hfalse

theorem voteHandler_post (s : Store) (req : VoteReq) (now : Nat) :
    voteHandler s Method.POST (.ok req) now = voteWrite s req (voteCheck s req) now := by
  simp [voteHandler]

/-- A vote handled by `voteHandler` leaves exactly one row for its (user, poll) pair, and
that row carries the option of the request. -/
theorem voteHandler_single_row (s : Store) (req : VoteReq) (now : Nat)
    (h : votesUnique s) :
    (voteHandler s Method.POST (.ok req) now).2 = Response.message "Vote recorded" ∧
    ∃ v, votesFor (voteHandler s Method.POST (.ok req) now).1 req.user_id req.poll_id = [v]
      ∧ v.option_id = req.option_id := by
  rw [voteHandler_post, voteCheck_eq_any]
  cases hany : s.votes.any
      (fun v => v.user_id == req.user_id && v.poll_id == req.poll_id) with
  | false =>
    rw [voteWrite_fresh s req now hany]
    refine ⟨rfl, { id := nextRowid s.seq.votes (s.votes.map (fun v => v.id)),
                   user_id := req.user_id, poll_id := req.poll_id,
                   option_id := req.option_id, created_at := now }, ?_, rfl⟩
    have hnil : s.votes.filter
        (fun v => v.user_id == req.user_id && v.poll_id == req.poll_id) = [] := by
      rw [List.filter_eq_nil_iff]
      intro v hv
      simpa using (List.any_eq_false.mp hany) v hv
    simp only [votesFor, List.filter_append, hnil, List.nil_append]
    simp [List.filter_cons]
  | true =>
    rw [voteWrite_existing]
    refine ⟨rfl, ?_⟩
    have hle := filter_length_le_one_of_nodup_key
      (fun v : VoteRow => (v.user_id, v.poll_id))
      (fun v => v.user_id == req.user_id && v.poll_id == req.poll_id)
      (req.user_id, req.poll_id) (by intro a ha; simpa using ha) s.votes h
    obtain ⟨v, hv⟩ := filter_eq_singleton_of_any _ _ hany hle
    refine ⟨{ v with option_id := req.option_id }, ?_, rfl⟩
    simp only [votesFor, updateVote_filter, hv, List.map_cons, List.map_nil]

/-- C1: for every store (satisfying the UNIQUE(user_id, poll_id) constraint of its votes
table), user U, poll P and options O and O2, after voteHandler has handled Vote(U, P, O)
and then Vote(U, P, O2), the votes table holds exactly one row with user_id = U and
poll_id = P, and the option_id of that row is O2. -/
theorem C1_revote_single_row (s : Store) (U P O O2 : Int) (now1 now2 : Nat)
    (h : votesUnique s) :
    ∃ v, votesFor
        (voteHandler
          (voteHandler s Method.POST (.ok { user_id := U, poll_id := P, option_id := O })
            now1).1
          Method.POST (.ok { user_id := U, poll_id := P, option_id := O2 }) now2).1 U P = [v]
      ∧ v.option_id = O2 := by
  have h1 : votesUnique
      (voteHandler s Method.POST (.ok { user_id := U, poll_id := P, option_id := O })
        now1).1 := by
    rw [voteHandler_post]
    exact votesUnique_voteWrite s _ _ now1 h
  exact (voteHandler_single_row _ { user_id := U, poll_id := P, option_id := O2 } now2 h1).2

/-- C1 at a concrete store: alice, who has voted for option 1 of poll 1, votes for option 1
again and then for option 2. -/
theorem C1_revote_single_row_witness :
    votesUnique pollWithVote ∧
    ∃ v, votesFor
        (voteHandler
          (voteHandler pollWithVote Method.POST
            (.ok { user_id := 1, poll_id := 1, option_id := 1 }) 400).1
          Method.POST (.ok { user_id := 1, poll_id := 1, option_id := 2 }) 500).1 1 1 = [v]
      ∧ v.option_id = 2 :=
  ⟨by unfold votesUnique; decide,
   C1_revote_single_row pollWithVote 1 1 1 2 400 500 (by unfold votesUnique; decide)⟩

/-! ## Poll creation -/

theorem insertOption_off (tx : Store) (pollID : Int) (text : String) :
    insertOption foreignKeys tx pollID text
      = .ok ({ tx with
                options := tx.options ++
                  [{ id := nextRowid tx.seq.options (tx.options.map (fun o => o.id)),
                     poll_id := pollID, text := text }],
                seq := { tx.seq with
                         options := nextRowid tx.seq.options
                           (tx.options.map (fun o => o.id)) } },
             nextRowid tx.seq.options (tx.options.map (fun o => o.id))) := by
  simp [insertOption, foreignKeys]

theorem insertPoll_off (s : Store) (title description : String) (user_id : Int) (now : Nat) :
    insertPoll foreignKeys s title description user_id now
      = .ok ({ s with
                polls := s.polls ++
                  [{ id := nextRowid s.seq.polls (s.polls.map (fun p => p.id)),
                     title := title, description := description, user_id := user_id,
                     created_at := now }],
                seq := { s.seq with
                         polls := nextRowid s.seq.polls (s.polls.map (fun p => p.id)) } },
             nextRowid s.seq.polls (s.polls.map (fun p => p.id))) := by
  simp [insertPoll, foreignKeys]

/-- The option loop either stops at the first statement the database fails, or adds one
option row per text, in order, all with the poll id, and touches no other table. -/
theorem insertOptions_spec (fault : Nat → Option String) (pollID : Int) :
    ∀ (texts : List String) (k : Nat) (tx : Store),
      (∃ e i, i < texts.length ∧ fault (k + i) = some e ∧
          insertOptions fault pollID texts k tx = .error e) ∨
      (∃ tx' rows, insertOptions fault pollID texts k tx = .ok tx' ∧
          (∀ i, i < texts.length → fault (k + i) = none) ∧
          tx'.options = tx.options ++ rows ∧
          rows.map (fun o => o.text) = texts ∧ (∀ o ∈ rows, o.poll_id = pollID) ∧
          tx'.users = tx.users ∧ tx'.polls = tx.polls ∧ tx'.votes = tx.votes ∧
          tx'.bookmarks = tx.bookmarks)
  | [], k, tx => by
    right
    exact ⟨tx, [], rfl, by simp, by simp, rfl, by simp, rfl, rfl, rfl, rfl⟩
  | text :: rest, k, tx => by
    cases hf : fault k with
    | some e =>
      left
      refine ⟨e, 0, by simp, by simpa using hf, ?_⟩
      simp [insertOptions, hf]
    | none =>
      have hstep : insertOptions fault pollID (text :: rest) k tx
          = insertOptions fault pollID rest (k + 1)
              { tx with
                options := tx.options ++
                  [{ id := nextRowid tx.seq.options (tx.options.map (fun o => o.id)),
                     poll_id := pollID, text := text }],
                seq := { tx.seq with
                         options := nextRowid tx.seq.options
                           (tx.options.map (fun o => o.id)) } } := by
        simp [insertOptions, hf, insertOption_off]
      rw [hstep]
      rcases insertOptions_spec fault pollID rest (k + 1) _ with
        ⟨e, i, hi, hfi, hres⟩ | ⟨tx', rows, hres, hnone, hopt, htext, hpoll, hu, hp, hv, hb⟩
      · left
        refine ⟨e, i + 1, by simpa using hi, ?_, hres⟩
        rw [← hfi]
        congr 1
        omega
      · right
        refine ⟨tx', { id := nextRowid tx.seq.options (tx.options.map (fun o => o.id)),
                       poll_id := pollID, text := text } :: rows,
          hres, ?_, ?_, ?_, ?_, hu, hp, hv, hb⟩
        · intro i hi
          cases i with
          | zero => simpa using hf
          | succ j =>
            have := hnone j (by simpa using hi)
            rw [← this]
            congr 1
            omega
        · rw [hopt]
          simp
        · simp [htext]
        · intro o ho
          rw [List.mem_cons] at ho
          rcases ho with rfl | ho
          · rfl
          · exact hpoll o ho

theorem le_maxId {x : Int} : ∀ {ids : List Int}, x ∈ ids → x ≤ maxId ids
  | [], h => by simp at h
  | a :: ids, h => by
    rw [List.mem_cons] at h
    show x ≤ max a (maxId ids)
    rcases h with rfl | h
    · exact le_max_left _ _
    · exact le_trans (le_maxId h) (le_max_right _ _)

theorem nextRowid_not_mem (seq : Int) (ids : List Int) : nextRowid seq ids ∉ ids := by
  intro h
  have h1 := le_maxId h
  have h2 : maxId ids ≤ max seq (maxId ids) := le_max_right _ _
  unfold nextRowid at h1
  omega

/-- The option rows the loop adds carry fresh, pairwise distinct ids. -/
theorem insertOptions_fresh (fault : Nat → Option String) (pollID : Int) :
    ∀ (texts : List String) (k : Nat) (tx tx' : Store),
      insertOptions fault pollID texts k tx = .ok tx' →
      ∃ rows, tx'.options = tx.options ++ rows ∧ (rows.map (fun o => o.id)).Nodup ∧
        ∀ o ∈ rows, o.id ∉ tx.options.map (fun o => o.id)
  | [], k, tx, tx', h => by
    simp only [insertOptions, Except.ok.injEq] at h
    subst h
    exact ⟨[], by simp, List.nodup_nil, by simp⟩
  | text :: rest, k, tx, tx', h => by
    cases hf : fault k with
    | some e => simp [insertOptions, hf] at h
    | none =>
      have hstep : insertOptions fault pollID (text :: rest) k tx
          = insertOptions fault pollID rest (k + 1)
              { tx with
                options := tx.options ++
                  [{ id := nextRowid tx.seq.options (tx.options.map (fun o => o.id)),
                     poll_id := pollID, text := text }],
                seq := { tx.seq with
                         options := nextRowid tx.seq.options
                           (tx.options.map (fun o => o.id)) } } := by
        simp [insertOptions, hf, insertOption_off]
      rw [hstep] at h
      obtain ⟨rows, hopt, hnd, hfresh⟩ := insertOptions_fresh fault pollID rest (k + 1) _ _ h
      refine ⟨{ id := nextRowid tx.seq.options (tx.options.map (fun o => o.id)),
                poll_id := pollID, text := text } :: rows, ?_, ?_, ?_⟩
      · rw [hopt]
        simp
      · rw [List.map_cons, List.nodup_cons]
        refine ⟨?_, hnd⟩
        intro hmem
        obtain ⟨o, ho, hid⟩ := List.mem_map.mp hmem
        apply hfresh o ho
        simp only [List.map_append, List.map_cons, List.map_nil, List.mem_append,
          List.mem_singleton]
        exact Or.inr hid
      · intro o ho
        rw [List.mem_cons] at ho
        rcases ho with rfl | ho
        · exact nextRowid_not_mem _ _
        · intro hmem
          apply hfresh o ho
          simp only [List.map_append, List.mem_append]
          exact Or.inl hmem

theorem createPollHandler_post (s : Store) (req : CreatePollReq)
    (fault : Nat → Option String) (now : Nat) :
    createPollHandler s Method.POST (.ok req) fault now
      = match fault 0 with
        | some e => (s, Response.error 500 e)
        | none =>
          match insertOptions fault (nextRowid s.seq.polls (s.polls.map (fun p => p.id)))
              req.options 1
              { s with
                polls := s.polls ++
                  [{ id := nextRowid s.seq.polls (s.polls.map (fun p => p.id)),
                     title := req.title, description := req.description,
                     user_id := req.user_id, created_at := now }],
                seq := { s.seq with
                         polls := nextRowid s.seq.polls (s.polls.map (fun p => p.id)) } } with
          | .error e => (s, Response.error 500 e)
          | .ok tx' =>
            (tx', Response.poll
              (refetchPoll tx' (nextRowid s.seq.polls (s.polls.map (fun p => p.id))))) := by
  simp [createPollHandler, insertPoll_off]

/-- What `createPollHandler` does when the database fails none of its statements. -/
theorem createPollHandler_success (s : Store) (req : CreatePollReq)
    (fault : Nat → Option String) (now : Nat)
    (hall : ∀ k, k ≤ req.options.length → fault k = none) :
    ∃ (tx' : Store) (rows : List OptionRow),
      createPollHandler s Method.POST (.ok req) fault now
        = (tx', Response.poll
            (refetchPoll tx' (nextRowid s.seq.polls (s.polls.map (fun q => q.id))))) ∧
      tx'.polls = s.polls ++ [{ id := nextRowid s.seq.polls (s.polls.map (fun q => q.id)),
                                title := req.title, description := req.description,
                                user_id := req.user_id, created_at := now }] ∧
      tx'.options = s.options ++ rows ∧
      rows.map (fun o => o.text) = req.options ∧
      (∀ o ∈ rows, o.poll_id = nextRowid s.seq.polls (s.polls.map (fun q => q.id))) ∧
      (rows.map (fun o => o.id)).Nodup ∧
      (∀ o ∈ rows, o.id ∉ s.options.map (fun o => o.id)) ∧
      tx'.users = s.users ∧ tx'.votes = s.votes ∧ tx'.bookmarks = s.bookmarks := by
  rw [createPollHandler_post, hall 0 (Nat.zero_le _)]
  simp only []
  rcases insertOptions_spec fault
      (nextRowid s.seq.polls (s.polls.map (fun p => p.id))) req.options 1
      { s with
        polls := s.polls ++
          [{ id := nextRowid s.seq.polls (s.polls.map (fun p => p.id)),
             title := req.title, description := req.description,
             user_id := req.user_id, created_at := now }],
        seq := { s.seq with
                 polls := nextRowid s.seq.polls (s.polls.map (fun p => p.id)) } } with
    ⟨e, i, hi, hfi, _⟩ | ⟨tx', rows, hres, _, hopt, htext, hpoll, hu, hp, hv, hb⟩
  · exfalso
    rw [hall (1 + i) (by omega)] at hfi
    exact Option.noConfusion hfi
  · obtain ⟨rows', hopt', hnd, hfresh⟩ := insertOptions_fresh fault _ _ 1 _ _ hres
    have hrows : rows' = rows := List.append_cancel_left (hopt'.symm.trans hopt)
    subst hrows
    rw [hres]
    exact ⟨tx', rows', rfl, hp, hopt, htext, hpoll, hnd, hfresh, hu, hv, hb⟩

/-- C7: for every store and CreatePoll request, if the poll insert or any option insert
fails (statement 0 is the poll insert, statement i + 1 the insert of option i), the handler
answers with an error and the store after the call equals the store before it; if all
inserts succeed, the store gains exactly one poll row (with a fresh id and the submitted
title, description and owner) and exactly one option row per submitted option text, in
order, with fresh and distinct ids, all carrying the id of the new poll, and the users,
votes and bookmarks tables do not change. -/
theorem C7_createPoll_atomic (s : Store) (req : CreatePollReq)
    (fault : Nat → Option String) (now : Nat) :
    ((∃ k, k ≤ req.options.length ∧ fault k ≠ none) →
      (createPollHandler s Method.POST (.ok req) fault now).1 = s ∧
      ∃ e, (createPollHandler s Method.POST (.ok req) fault now).2 = Response.error 500 e) ∧
    ((∀ k, k ≤ req.options.length → fault k = none) →
      ∃ (pollID : Int) (rows : List OptionRow) (p : Poll),
        (createPollHandler s Method.POST (.ok req) fault now).2 = Response.poll p ∧
        pollID ∉ s.polls.map (fun q => q.id) ∧
        (createPollHandler s Method.POST (.ok req) fault now).1.polls
          = s.polls ++ [{ id := pollID, title := req.title, description := req.description,
                          user_id := req.user_id, created_at := now }] ∧
        (createPollHandler s Method.POST (.ok req) fault now).1.options
          = s.options ++ rows ∧
        rows.map (fun o => o.text) = req.options ∧
        (∀ o ∈ rows, o.poll_id = pollID) ∧
        (rows.map (fun o => o.id)).Nodup ∧
        (∀ o ∈ rows, o.id ∉ s.options.map (fun o => o.id)) ∧
        (createPollHandler s Method.POST (.ok req) fault now).1.users = s.users ∧
        (createPollHandler s Method.POST (.ok req) fault now).1.votes = s.votes ∧
        (createPollHandler s Method.POST (.ok req) fault now).1.bookmarks = s.bookmarks) := by
  rw [createPollHandler_post]
  constructor
  · rintro ⟨k, hk, hfk⟩
    cases h0 : fault 0 with
    | some e => exact ⟨rfl, e, rfl⟩
    | none =>
      simp only []
      rcases insertOptions_spec fault
          (nextRowid s.seq.polls (s.polls.map (fun p => p.id))) req.options 1
          { s with
            polls := s.polls ++
              [{ id := nextRowid s.seq.polls (s.polls.map (fun p => p.id)),
                 title := req.title, description := req.description,
                 user_id := req.user_id, created_at := now }],
            seq := { s.seq with
                     polls := nextRowid s.seq.polls (s.polls.map (fun p => p.id)) } } with
        ⟨e, i, _, _, hres⟩ | ⟨tx', rows, _, hnone, _⟩
      · rw [hres]
        exact ⟨rfl, e, rfl⟩
      · exfalso
        cases k with
        | zero => exact hfk h0
        | succ j =>
          apply hfk
          have := hnone j (by omega)
          rw [← this]
          congr 1
          omega
  · intro hall
    obtain ⟨tx', rows, hres, hp, hopt, htext, hpoll, hnd, hfresh, hu, hv, hb⟩ :=
      createPollHandler_success s req fault now hall
    rw [← createPollHandler_post, hres]
    exact ⟨_, rows, _, rfl, nextRowid_not_mem _ _, hp, hopt, htext, hpoll, hnd, hfresh,
      hu, hv, hb⟩

/-- C7 at a concrete request: with the second option insert failing the store is
unchanged and the answer is the error; with no failure the poll and both options are
stored. -/
theorem C7_createPoll_atomic_witness :
    ((createPollHandler pollWithVote Method.POST
        (.ok { user_id := 1, title := "Dinner?", description := "d", options := ["X", "Y"] })
        (fun k => if k = 2 then some "disk I/O error" else none) 600).1 = pollWithVote ∧
      ∃ e, (createPollHandler pollWithVote Method.POST
        (.ok { user_id := 1, title := "Dinner?", description := "d", options := ["X", "Y"] })
        (fun k => if k = 2 then some "disk I/O error" else none) 600).2
          = Response.error 500 e) ∧
    (∃ (pollID : Int) (rows : List OptionRow) (p : Poll),
        (createPollHandler pollWithVote Method.POST
          (.ok { user_id := 1, title := "Dinner?", description := "d", options := ["X", "Y"] })
          noFault 600).2 = Response.poll p ∧
        pollID ∉ pollWithVote.polls.map (fun q => q.id) ∧
        (createPollHandler pollWithVote Method.POST
          (.ok { user_id := 1, title := "Dinner?", description := "d", options := ["X", "Y"] })
          noFault 600).1.polls
          = pollWithVote.polls ++ [{ id := pollID, title := "Dinner?", description := "d",
                                     user_id := 1, created_at := 600 }] ∧
        (createPollHandler pollWithVote Method.POST
          (.ok { user_id := 1, title := "Dinner?", description := "d", options := ["X", "Y"] })
          noFault 600).1.options = pollWithVote.options ++ rows ∧
        rows.map (fun o => o.text) = ["X", "Y"] ∧
        (∀ o ∈ rows, o.poll_id = pollID) ∧
        (rows.map (fun o => o.id)).Nodup ∧
        (∀ o ∈ rows, o.id ∉ pollWithVote.options.map (fun o => o.id)) ∧
        (createPollHandler pollWithVote Method.POST
          (.ok { user_id := 1, title := "Dinner?", description := "d", options := ["X", "Y"] })
          noFault 600).1.users = pollWithVote.users ∧
        (createPollHandler pollWithVote Method.POST
          (.ok { user_id := 1, title := "Dinner?", description := "d", options := ["X", "Y"] })
          noFault 600).1.votes = pollWithVote.votes ∧
        (createPollHandler pollWithVote Method.POST
          (.ok { user_id := 1, title := "Dinner?", description := "d", options := ["X", "Y"] })
          noFault 600).1.bookmarks = pollWithVote.bookmarks) :=
  ⟨(C7_createPoll_atomic pollWithVote
      { user_id := 1, title := "Dinner?", description := "d", options := ["X", "Y"] }
      (fun k => if k = 2 then some "disk I/O error" else none) 600).1
      ⟨2, by decide, by decide⟩,
   (C7_createPoll_atomic pollWithVote
      { user_id := 1, title := "Dinner?", description := "d", options := ["X", "Y"] }
      noFault 600).2 (fun _ _ => rfl)⟩

/-! ## Registration -/

theorem registerHandler_post (s : Store) (req : RegisterReq) (hashedPassword : String)
    (now : Nat) :
    registerHandler s Method.POST (.ok req) (.ok hashedPassword) now
      = match insertUser s req.username req.email hashedPassword now with
        | .error _ => (s, Response.error 409 "Username or email already exists")
        | .ok (s', userID) =>
          (s', Response.user { ID := userID, Username := req.username, Email := req.email,
                               CreatedAt := "" }) := by
  simp [registerHandler]

/-- C8 as stated fails: a body that decodes but carries a password of 73 bytes makes
`bcrypt.GenerateFromPassword` return an error, and `registerHandler` answers 500 and
leaves the store unchanged, both for a fresh username and email (where the claim says
success) and for a taken username (where the claim says 409). -/
theorem C8_counterexample :
    longPasswordReq.password.length = 73 ∧
    (∀ u ∈ pollNoVote.users,
      u.username ≠ longPasswordReq.username ∧ u.email ≠ longPasswordReq.email) ∧
    registerHandler pollNoVote Method.POST (.ok longPasswordReq) bcryptTooLong 700
      = (pollNoVote, Response.error 500 "bcrypt: password length exceeds 72 bytes") ∧
    (∃ u ∈ pollNoVote.users, u.username = longPasswordTakenReq.username) ∧
    registerHandler pollNoVote Method.POST (.ok longPasswordTakenReq) bcryptTooLong 700
      = (pollNoVote, Response.error 500 "bcrypt: password length exceeds 72 bytes") := by
  decide

/-- C8 (amended): for every store and Register request whose body decodes and whose
password `bcrypt.GenerateFromPassword` hashes without an error: if the username or the
email already belongs to a user row, Register answers 409 Conflict and leaves the store
unchanged; if both are fresh, Register answers with a User record, adds exactly one user
row (fresh id, the submitted username and email, the hash as password), changes no other
table, and the returned record carries the new id, the submitted username and email and
no field holding the password or its hash. -/
theorem C8_register_conflict_or_fresh (s : Store) (req : RegisterReq)
    (hashedPassword : String) (now : Nat) :
    ((∃ u ∈ s.users, u.username = req.username ∨ u.email = req.email) →
      registerHandler s Method.POST (.ok req) (.ok hashedPassword) now
        = (s, Response.error 409 "Username or email already exists")) ∧
    ((∀ u ∈ s.users, u.username ≠ req.username ∧ u.email ≠ req.email) →
      ∃ (id : Int) (rec : User),
        (registerHandler s Method.POST (.ok req) (.ok hashedPassword) now).2
          = Response.user rec ∧
        rec = { ID := id, Username := req.username, Email := req.email, CreatedAt := "" } ∧
        rec.jsonFields = [("id", toString id), ("username", req.username),
                          ("email", req.email), ("created_at", "")] ∧
        id ∉ s.users.map (fun u => u.id) ∧
        (registerHandler s Method.POST (.ok req) (.ok hashedPassword) now).1.users
          = s.users ++ [{ id := id, username := req.username, email := req.email,
                          password := hashedPassword, created_at := now }] ∧
        (registerHandler s Method.POST (.ok req) (.ok hashedPassword) now).1.polls
          = s.polls ∧
        (registerHandler s Method.POST (.ok req) (.ok hashedPassword) now).1.options
          = s.options ∧
        (registerHandler s Method.POST (.ok req) (.ok hashedPassword) now).1.votes
          = s.votes ∧
        (registerHandler s Method.POST (.ok req) (.ok hashedPassword) now).1.bookmarks
          = s.bookmarks) := by
  rw [registerHandler_post]
  constructor
  · rintro ⟨u, hu, hdup⟩
    by_cases hname : s.users.any (fun u => u.username == req.username) = true
    · simp [insertUser, hname]
    · by_cases hmail : s.users.any (fun u => u.email == req.email) = true
      · simp [insertUser, hname, hmail]
      · exfalso
        rcases hdup with h | h
        · exact hname (List.any_eq_true.mpr ⟨u, hu, by simp [h]⟩)
        · exact hmail (List.any_eq_true.mpr ⟨u, hu, by simp [h]⟩)
  · intro hfresh
    have hname : s.users.any (fun u => u.username == req.username) = false := by
      rw [List.any_eq_false]
      intro u hu
      simpa using (hfresh u hu).1
    have hmail : s.users.any (fun u => u.email == req.email) = false := by
      rw [List.any_eq_false]
      intro u hu
      simpa using (hfresh u hu).2
    refine ⟨nextRowid s.seq.users (s.users.map (fun u => u.id)), _, ?_, rfl, rfl,
      nextRowid_not_mem _ _, ?_, ?_, ?_, ?_, ?_⟩ <;>
    simp [insertUser, hname, hmail]

/-- C8 (amended) at concrete requests: alice again (conflict), and bob (fresh). -/
theorem C8_register_conflict_or_fresh_witness :
    registerHandler pollWithVote Method.POST
        (.ok { username := "alice", email := "other@example.org", password := "pw" })
        (.ok "$2a$10$hashX") 700
      = (pollWithVote, Response.error 409 "Username or email already exists") ∧
    ∃ (id : Int) (rec : User),
      (registerHandler pollWithVote Method.POST
        (.ok { username := "bob", email := "bob@example.org", password := "pw" })
        (.ok "$2a$10$hashB") 700).2 = Response.user rec ∧
      rec = { ID := id, Username := "bob", Email := "bob@example.org", CreatedAt := "" } ∧
      rec.jsonFields = [("id", toString id), ("username", "bob"),
                        ("email", "bob@example.org"), ("created_at", "")] ∧
      id ∉ pollWithVote.users.map (fun u => u.id) ∧
      (registerHandler pollWithVote Method.POST
        (.ok { username := "bob", email := "bob@example.org", password := "pw" })
        (.ok "$2a$10$hashB") 700).1.users
        = pollWithVote.users ++ [{ id := id, username := "bob", email := "bob@example.org",
                                   password := "$2a$10$hashB", created_at := 700 }] ∧
      (registerHandler pollWithVote Method.POST
        (.ok { username := "bob", email := "bob@example.org", password := "pw" })
        (.ok "$2a$10$hashB") 700).1.polls = pollWithVote.polls ∧
      (registerHandler pollWithVote Method.POST
        (.ok { username := "bob", email := "bob@example.org", password := "pw" })
        (.ok "$2a$10$hashB") 700).1.options = pollWithVote.options ∧
      (registerHandler pollWithVote Method.POST
        (.ok { username := "bob", email := "bob@example.org", password := "pw" })
        (.ok "$2a$10$hashB") 700).1.votes = pollWithVote.votes ∧
      (registerHandler pollWithVote Method.POST
        (.ok { username := "bob", email := "bob@example.org", password := "pw" })
        (.ok "$2a$10$hashB") 700).1.bookmarks = pollWithVote.bookmarks :=
  ⟨(C8_register_conflict_or_fresh pollWithVote
      { username := "alice", email := "other@example.org", password := "pw" }
      "$2a$10$hashX" 700).1
      ⟨{ id := 1, username := "alice", email := "alice@example.org",
         password := "$2a$10$hashA", created_at := 100 }, by decide, Or.inl rfl⟩,
   (C8_register_conflict_or_fresh pollWithVote
      { username := "bob", email := "bob@example.org", password := "pw" }
      "$2a$10$hashB" 700).2 (by decide)⟩

/-! ## Bookmarks -/

theorem bookmark_post_ignored (s : Store) (req : BookmarkReq) (now : Nat)
    (h : s.bookmarks.any (fun b => b.user_id == req.user_id && b.poll_id == req.poll_id)
      = true) :
    bookmarkHandler s Method.POST (.ok req) now
      = ({ s with seq := { s.seq with
            bookmarks := nextRowid s.seq.bookmarks (s.bookmarks.map (fun b => b.id)) } },
         Response.message "Bookmarked") := by
  simp only [bookmarkHandler, insertOrIgnoreBookmark, h]
  simp

theorem bookmark_post_inserted (s : Store) (req : BookmarkReq) (now : Nat)
    (h : s.bookmarks.any (fun b => b.user_id == req.user_id && b.poll_id == req.poll_id)
      = false) :
    bookmarkHandler s Method.POST (.ok req) now
      = ({ s with
            bookmarks := s.bookmarks ++
              [{ id := nextRowid s.seq.bookmarks (s.bookmarks.map (fun b => b.id)),
                 user_id := req.user_id, poll_id := req.poll_id, created_at := now }],
            seq := { s.seq with
              bookmarks := nextRowid s.seq.bookmarks (s.bookmarks.map (fun b => b.id)) } },
         Response.message "Bookmarked") := by
  simp only [bookmarkHandler, insertOrIgnoreBookmark, h, foreignKeys]
  simp

theorem bookmark_delete (s : Store) (req : BookmarkReq) (now : Nat) :
    bookmarkHandler s Method.DELETE (.ok req) now
      = (deleteBookmark s req.user_id req.poll_id, Response.message "Unbookmarked") := by
  simp [bookmarkHandler]

/-- After `POST /api/bookmark` the pair is bookmarked exactly once, whatever was there. -/
theorem bookmark_post_once (s : Store) (req : BookmarkReq) (now : Nat)
    (h : bookmarksUnique s) :
    (bookmarkHandler s Method.POST (.ok req) now).2 = Response.message "Bookmarked" ∧
    (bookmarksFor (bookmarkHandler s Method.POST (.ok req) now).1
      req.user_id req.poll_id).length = 1 := by
  cases hany : s.bookmarks.any
      (fun b => b.user_id == req.user_id && b.poll_id == req.poll_id) with
  | true =>
    rw [bookmark_post_ignored s req now hany]
    refine ⟨rfl, ?_⟩
    have hle := filter_length_le_one_of_nodup_key
      (fun b : BookmarkRow => (b.user_id, b.poll_id))
      (fun b => b.user_id == req.user_id && b.poll_id == req.poll_id)
      (req.user_id, req.poll_id) (by intro a ha; simpa using ha) s.bookmarks h
    obtain ⟨b, hb⟩ := filter_eq_singleton_of_any _ _ hany hle
    simp only [bookmarksFor, hb, List.length_singleton]
  | false =>
    rw [bookmark_post_inserted s req now hany]
    refine ⟨rfl, ?_⟩
    have hnil : s.bookmarks.filter
        (fun b => b.user_id == req.user_id && b.poll_id == req.poll_id) = [] := by
      rw [List.filter_eq_nil_iff]
      intro b hb
      simpa using (List.any_eq_false.mp hany) b hb
    simp only [bookmarksFor, List.filter_append, hnil, List.nil_append]
    simp [List.filter_cons]

/-- C3 as stated fails: after alice bookmarks poll 1 twice the store is not the store
after one bookmark, because the second, ignored insert still advances the AUTOINCREMENT
counter of bookmarks (2 against 1), so the next bookmark row gets id 3 instead of 2. -/
theorem C3_counterexample :
    (bookmarkHandler
        (bookmarkHandler pollWithVote Method.POST (.ok { user_id := 1, poll_id := 1 }) 400).1
        Method.POST (.ok { user_id := 1, poll_id := 1 }) 500).1
      ≠ (bookmarkHandler pollWithVote Method.POST
          (.ok { user_id := 1, poll_id := 1 }) 400).1 ∧
    (bookmarkHandler
        (bookmarkHandler pollWithVote Method.POST (.ok { user_id := 1, poll_id := 1 }) 400).1
        Method.POST (.ok { user_id := 1, poll_id := 1 }) 500).1.seq.bookmarks = 2 ∧
    (bookmarkHandler pollWithVote Method.POST
        (.ok { user_id := 1, poll_id := 1 }) 400).1.seq.bookmarks = 1 := by
  decide

/-- C3 (amended): for every store (satisfying the UNIQUE(user_id, poll_id) constraint of
its bookmarks table), user U and poll P: Bookmark(U, P) applied twice answers success both
times, leaves exactly one bookmark row for (U, P), and leaves each of the five tables with
exactly the rows one application leaves; and Unbookmark(U, P) on a store with no bookmark
row for (U, P) leaves the store unchanged and answers 200 with a message, not an error. -/
theorem C3_bookmark_idempotent (s : Store) (U P : Int) (now1 now2 now3 : Nat)
    (h : bookmarksUnique s) :
    (bookmarkHandler s Method.POST (.ok { user_id := U, poll_id := P }) now1).2
      = Response.message "Bookmarked" ∧
    (bookmarkHandler
        (bookmarkHandler s Method.POST (.ok { user_id := U, poll_id := P }) now1).1
        Method.POST (.ok { user_id := U, poll_id := P }) now2).2
      = Response.message "Bookmarked" ∧
    (bookmarksFor
        (bookmarkHandler
          (bookmarkHandler s Method.POST (.ok { user_id := U, poll_id := P }) now1).1
          Method.POST (.ok { user_id := U, poll_id := P }) now2).1 U P).length = 1 ∧
    sameTables
        (bookmarkHandler
          (bookmarkHandler s Method.POST (.ok { user_id := U, poll_id := P }) now1).1
          Method.POST (.ok { user_id := U, poll_id := P }) now2).1
        (bookmarkHandler s Method.POST (.ok { user_id := U, poll_id := P }) now1).1 ∧
    (bookmarksFor s U P = [] →
      bookmarkHandler s Method.DELETE (.ok { user_id := U, poll_id := P }) now3
        = (s, Response.message "Unbookmarked")) := by
  have h1 := bookmark_post_once s { user_id := U, poll_id := P } now1 h
  have hany : (bookmarkHandler s Method.POST
      (.ok { user_id := U, poll_id := P }) now1).1.bookmarks.any
      (fun b => b.user_id == U && b.poll_id == P) = true := by
    rcases hf : bookmarksFor (bookmarkHandler s Method.POST
      (.ok { user_id := U, poll_id := P }) now1).1 U P with _ | ⟨b, t⟩
    · have := h1.2
      rw [hf] at this
      simp at this
    · have hb : b ∈ bookmarksFor (bookmarkHandler s Method.POST
          (.ok { user_id := U, poll_id := P }) now1).1 U P := by
        rw [hf]
        exact List.mem_cons_self _ _
      unfold bookmarksFor at hb
      rw [List.mem_filter] at hb
      exact List.any_eq_true.mpr ⟨b, hb.1, hb.2⟩
  have h2 := bookmark_post_ignored _ { user_id := U, poll_id := P } now2 hany
  refine ⟨h1.1, ?_, ?_, ?_, ?_⟩
  · rw [h2]
  · rw [h2]
    exact h1.2
  · rw [h2]
    exact ⟨rfl, rfl, rfl, rfl, rfl⟩
  · intro hnone
    rw [bookmark_delete]
    have hself : s.bookmarks.filter (fun b => !(b.user_id == U && b.poll_id == P))
        = s.bookmarks := by
      rw [List.filter_eq_self]
      intro b hb
      unfold bookmarksFor at hnone
      rw [List.filter_eq_nil_iff] at hnone
      have hb' := hnone b hb
      rw [Bool.not_eq_true] at hb'
      rw [hb']
      rfl
    simp only [deleteBookmark, hself]

/-- C3 (amended) at a concrete store: alice bookmarks poll 1 twice; before that,
unbookmarking it is a no-op. -/
theorem C3_bookmark_idempotent_witness :
    bookmarksUnique pollWithVote ∧ bookmarksFor pollWithVote 1 1 = [] ∧
    (bookmarkHandler pollWithVote Method.POST (.ok { user_id := 1, poll_id := 1 }) 400).2
      = Response.message "Bookmarked" ∧
    (bookmarkHandler
        (bookmarkHandler pollWithVote Method.POST (.ok { user_id := 1, poll_id := 1 }) 400).1
        Method.POST (.ok { user_id := 1, poll_id := 1 }) 500).2
      = Response.message "Bookmarked" ∧
    (bookmarksFor
        (bookmarkHandler
          (bookmarkHandler pollWithVote Method.POST
            (.ok { user_id := 1, poll_id := 1 }) 400).1
          Method.POST (.ok { user_id := 1, poll_id := 1 }) 500).1 1 1).length = 1 ∧
    sameTables
        (bookmarkHandler
          (bookmarkHandler pollWithVote Method.POST
            (.ok { user_id := 1, poll_id := 1 }) 400).1
          Method.POST (.ok { user_id := 1, poll_id := 1 }) 500).1
        (bookmarkHandler pollWithVote Method.POST
          (.ok { user_id := 1, poll_id := 1 }) 400).1 ∧
    bookmarkHandler pollWithVote Method.DELETE (.ok { user_id := 1, poll_id := 1 }) 600
      = (pollWithVote, Response.message "Unbookmarked") :=
  have t := C3_bookmark_idempotent pollWithVote 1 1 400 500 600
    (by unfold bookmarksUnique; decide)
  ⟨by unfold bookmarksUnique; decide, by decide, t.1, t.2.1, t.2.2.1, t.2.2.2.1,
   t.2.2.2.2 (by decide)⟩

/-! ## One vote per user and poll, in every reachable store -/

theorem insertUser_votes {s s' : Store} {username email password : String} {now : Nat}
    {id : Int} (h : insertUser s username email password now = .ok (s', id)) :
    s'.votes = s.votes := by
  unfold insertUser at h
  split at h
  · cases h
  · split at h
    · cases h
    · simp only [Except.ok.injEq, Prod.mk.injEq] at h
      rw [← h.1]

theorem insertOrIgnoreBookmark_votes {fk : Bool} {s s' : Store} {user_id poll_id : Int}
    {now : Nat} (h : insertOrIgnoreBookmark fk s user_id poll_id now = .ok s') :
    s'.votes = s.votes := by
  unfold insertOrIgnoreBookmark at h
  simp only [] at h
  split at h
  · simp only [Except.ok.injEq] at h
    rw [← h]
  · split at h
    · cases h
    · simp only [Except.ok.injEq] at h
      rw [← h]

theorem registerHandler_votes (s : Store) (m : Method) (body : Except String RegisterReq)
    (hashed : Except String String) (now : Nat) :
    (registerHandler s m body hashed now).1.votes = s.votes := by
  unfold registerHandler
  repeat' split
  all_goals first | rfl | exact insertUser_votes ‹_›

theorem createPollHandler_votes (s : Store) (m : Method)
    (body : Except String CreatePollReq) (fault : Nat → Option String) (now : Nat) :
    (createPollHandler s m body fault now).1.votes = s.votes := by
  unfold createPollHandler
  split
  · rfl
  · split
    · rfl
    · split
      · rfl
      · rw [insertPoll_off]
        simp only []
        rcases insertOptions_spec fault _ _ 1 _ with
          ⟨e, i, _, _, hres⟩ | ⟨tx', rows, hres, _, _, _, _, _, _, hv, _⟩
        · rw [hres]
        · rw [hres]
          exact hv

theorem bookmarkHandler_votes (s : Store) (m : Method)
    (body : Except String BookmarkReq) (now : Nat) :
    (bookmarkHandler s m body now).1.votes = s.votes := by
  unfold bookmarkHandler
  repeat' split
  all_goals first | rfl | exact insertOrIgnoreBookmark_votes ‹_›

theorem deletePollHandler_votes (s : Store) (m : Method) (pollID : Int) :
    (deletePollHandler s m pollID).1.votes = s.votes := by
  unfold deletePollHandler deletePoll foreignKeys
  split <;> rfl

theorem voteHandler_votesUnique (s : Store) (m : Method) (body : Except String VoteReq)
    (now : Nat) (h : votesUnique s) : votesUnique (voteHandler s m body now).1 := by
  unfold voteHandler
  split
  · exact h
  · split
    · exact h
    · exact votesUnique_voteWrite s _ _ now h

theorem handle_votesUnique (s : Store) (c : Call) (h : votesUnique s) :
    votesUnique (c.handle s).1 := by
  cases c with
  | register m body hashed now =>
    unfold votesUnique at *
    simpa only [Call.handle, registerHandler_votes] using h
  | createPoll m body fault now =>
    unfold votesUnique at *
    simpa only [Call.handle, createPollHandler_votes] using h
  | vote m body now => exact voteHandler_votesUnique s m body now h
  | bookmark m body now =>
    unfold votesUnique at *
    simpa only [Call.handle, bookmarkHandler_votes] using h
  | deletePoll m pollID =>
    unfold votesUnique at *
    simpa only [Call.handle, deletePollHandler_votes] using h

theorem runCalls_votesUnique (calls : List Call) :
    ∀ s : Store, votesUnique s → votesUnique (runCalls s calls) := by
  induction calls with
  | nil => intro s h; exact h
  | cons c rest ih =>
    intro s h
    exact ih _ (handle_votesUnique s c h)

theorem votesFor_length_le_one (s : Store) (h : votesUnique s) (U P : Int) :
    (votesFor s U P).length ≤ 1 :=
  filter_length_le_one_of_nodup_key (fun v : VoteRow => (v.user_id, v.poll_id))
    (fun v => v.user_id == U && v.poll_id == P) (U, P)
    (by intro a ha; simpa using ha) s.votes h

/-- C2: in every store reachable from the empty store by a finite sequence of handler
calls executed one at a time (register, create poll, vote, bookmark, unbookmark, delete
poll, with any method, body, bcrypt result, database fault and clock), the votes table
holds at most one row per (user_id, poll_id) pair. -/
theorem C2_reachable_one_vote_per_pair (calls : List Call) (U P : Int) :
    (votesFor (runCalls initDB calls) U P).length ≤ 1 :=
  votesFor_length_le_one _
    (runCalls_votesUnique calls initDB (by unfold votesUnique initDB; exact List.nodup_nil))
    U P

/-! ## Concurrent votes -/

theorem taskStep_votesUnique (s : Store) (t : VoteTask) (now : Nat) (h : votesUnique s) :
    votesUnique (t.step s now).1 := by
  unfold VoteTask.step
  split
  · exact h
  · exact votesUnique_voteWrite s _ _ now h
  · exact h

theorem worldStep_votesUnique (w : World) (i now : Nat) (h : votesUnique w.store) :
    votesUnique (w.step i now).store := by
  unfold World.step
  split
  · exact h
  · exact taskStep_votesUnique _ _ now h

theorem worldRun_votesUnique (sched : List (Nat × Nat)) :
    ∀ w : World, votesUnique w.store → votesUnique (w.run sched).store := by
  induction sched with
  | nil => intro w h; exact h
  | cons a rest ih =>
    intro w h
    exact ih _ (worldStep_votesUnique w a.1 a.2 h)

/-- A request that runs alone takes the two steps of `voteHandler`. -/
theorem worldRun_alone (s : Store) (req : VoteReq) (now : Nat) :
    (World.run { store := s, tasks := [VoteTask.start req] } [(0, now), (0, now)])
      = { store := (voteHandler s Method.POST (.ok req) now).1,
          tasks := [{ req := req,
                      phase := .answered (voteHandler s Method.POST (.ok req) now).2 }] } := by
  simp [World.run, World.step, VoteTask.step, VoteTask.start, voteHandler_post]

/-- The race of the vote handler: both requests see no vote, both insert, and the second
insert is refused by the uniqueness constraint and answered with a 500. -/
theorem race_second_insert_refused :
    (racingVotes.run checkCheckWriteWrite).store.votes
      = [{ id := 1, user_id := 1, poll_id := 1, option_id := 1, created_at := 301 }] ∧
    (racingVotes.run checkCheckWriteWrite).tasks.map (fun t => t.phase)
      = [.answered (Response.message "Vote recorded"),
         .answered (Response.error 500
           "UNIQUE constraint failed: votes.user_id, votes.poll_id")] := by
  decide

/-- C9: for every store (satisfying the UNIQUE(user_id, poll_id) constraint of its votes
table), every list of Vote requests in flight at once, and every interleaving of their
steps (existence check, then update-or-insert write), the votes table never holds two
rows for any pair (U, P), in particular not for the pair the requests vote on. -/
theorem C9_interleaved_votes_one_row (s : Store) (reqs : List VoteReq)
    (sched : List (Nat × Nat)) (U P : Int) (h : votesUnique s) :
    (votesFor (World.run { store := s, tasks := reqs.map VoteTask.start } sched).store
      U P).length ≤ 1 :=
  votesFor_length_le_one _ (worldRun_votesUnique sched _ h) U P

/-- C9 at the race: two requests of alice on poll 1, both checking before either writes. -/
theorem C9_interleaved_votes_one_row_witness :
    votesUnique pollNoVote ∧
    (votesFor (World.run
        { store := pollNoVote,
          tasks := [ ({ user_id := 1, poll_id := 1, option_id := 1 } : VoteReq),
                     { user_id := 1, poll_id := 1, option_id := 2 } ].map VoteTask.start }
        checkCheckWriteWrite).store 1 1).length ≤ 1 :=
  ⟨by unfold votesUnique; decide,
   C9_interleaved_votes_one_row pollNoVote _ checkCheckWriteWrite 1 1
    (by unfold votesUnique; decide)⟩

/-! ## Poll deletion -/

/-- C5 at the failing input: alice's poll 1 has the options 1 and 2 and her vote;
`deletePollHandler` removes the poll row, after which both option rows and the vote row
with poll_id = 1 are still in the store. -/
theorem C5_delete_leaves_options_and_votes :
    (deletePollHandler pollWithVote Method.DELETE 1).2 = Response.message "Poll deleted" ∧
    (deletePollHandler pollWithVote Method.DELETE 1).1.polls = [] ∧
    (deletePollHandler pollWithVote Method.DELETE 1).1.options
      = [{ id := 1, poll_id := 1, text := "A" }, { id := 2, poll_id := 1, text := "B" }] ∧
    (deletePollHandler pollWithVote Method.DELETE 1).1.votes
      = [{ id := 1, user_id := 1, poll_id := 1, option_id := 1, created_at := 300 }] := by
  decide

/-- With foreign keys enforced, the `ON DELETE CASCADE` clauses of the schema would leave
no option row and no vote row of the deleted poll. -/
theorem deletePoll_cascades_when_enforced (s : Store) (P : Int) :
    (∀ o ∈ (deletePoll true s P).options, o.poll_id ≠ P) ∧
    (∀ v ∈ (deletePoll true s P).votes, v.poll_id ≠ P) := by
  constructor
  · intro o ho
    simp only [deletePoll, if_true, List.mem_filter] at ho
    simpa using ho.2
  · intro v hv
    simp only [deletePoll, if_true, List.mem_filter] at hv
    have := hv.2
    simp only [Bool.and_eq_true, Bool.not_eq_true', beq_eq_false_iff_ne] at this
    exact this.1

/-- After `deletePollHandler` the poll row is gone and `getPollHandler` answers 404. -/
theorem deletePollHandler_then_getPoll (s : Store) (P : Int) :
    (∀ q ∈ (deletePollHandler s Method.DELETE P).1.polls, q.id ≠ P) ∧
    getPollHandler (deletePollHandler s Method.DELETE P).1 P
      = Response.error 404 "Poll not found" := by
  have hpolls : (deletePollHandler s Method.DELETE P).1.polls
      = s.polls.filter (fun p => !(p.id == P)) := by
    simp [deletePollHandler, deletePoll, foreignKeys]
  have habs : ∀ q ∈ (deletePollHandler s Method.DELETE P).1.polls, q.id ≠ P := by
    intro q hq
    rw [hpolls, List.mem_filter] at hq
    simpa using hq.2
  refine ⟨habs, ?_⟩
  have hnone : (deletePollHandler s Method.DELETE P).1.polls.find? (fun p => p.id == P)
      = none := by
    rw [List.find?_eq_none]
    intro q hq
    simpa using habs q hq
  simp only [getPollHandler, hnone]

/-! ## A new poll and votes cast before it existed -/

/-- C4 at the failing input: alice is registered and a vote (user 1, poll 1, option 1) was
accepted and stored while no poll existed; her CreatePoll with the options A and B
succeeds with poll id 1, and GetPoll on it returns option A with vote_count 1 and a poll
vote_count of 1. -/
theorem C4_new_poll_counts_earlier_vote :
    hasUser voteOnly 1 = true ∧
    voteOnly.polls = [] ∧
    voteOnly.votes
      = [{ id := 1, user_id := 1, poll_id := 1, option_id := 1, created_at := 300 }] ∧
    (createPollHandler voteOnly Method.POST (.ok lunchReq) noFault 200).2
      = Response.poll { ID := 1, Title := "Lunch?", Description := "", UserID := 1,
                        Username := "alice", CreatedAt := some 200, Options := [],
                        VoteCount := 0 } ∧
    getPollHandler (createPollHandler voteOnly Method.POST (.ok lunchReq) noFault 200).1 1
      = Response.poll { ID := 1, Title := "Lunch?", Description := "", UserID := 1,
                        Username := "alice", CreatedAt := some 200,
                        Options := [{ ID := 1, PollID := 0, Text := "A", VoteCount := 1 },
                                    { ID := 2, PollID := 0, Text := "B", VoteCount := 0 }],
                        VoteCount := 1 } := by
  decide

/-! ## Listing polls -/

theorem wrapInt_of_range (x : Int) (h0 : 0 ≤ x) (h1 : x < 9223372036854775808) :
    wrapInt x = x := by
  unfold wrapInt
  omega

theorem getPollsHandler_eq (s : Store) (p : Int) :
    getPollsHandler s p
      = Response.polls
          ((((orderByCreatedAtDesc s.polls).drop
              (wrapInt ((max p 1 - 1) * 10)).toNat).take 10).filterMap
            (fun q => scanPollWithOptions s (summaryRow s q)))
          s.polls.length (max p 1) 10 := by
  have hpage : (if p < 1 then (1 : Int) else p) = max p 1 := by
    split <;> omega
  simp only [getPollsHandler, limitOffset, selectPollSummaries, hpage]
  have h10 : ¬ ((10 : Int) < 0) := by omega
  rw [if_neg h10, ← List.map_drop, ← List.map_take, List.filterMap_map]
  rfl

theorem scan_of_owner (s : Store) (q : PollRow) (h : hasUser s q.user_id = true) :
    ∃ e, scanPollWithOptions s (summaryRow s q) = some e ∧ e.ID = q.id := by
  unfold hasUser at h
  rw [List.any_eq_true] at h
  obtain ⟨u, hu⟩ := Option.isSome_iff_exists.mp (List.find?_isSome.mpr h)
  have hscan : scanPollWithOptions s (summaryRow s q)
      = some { ID := q.id, Title := q.title, Description := q.description,
               UserID := q.user_id, Username := u.username, CreatedAt := some q.created_at,
               Options := [] ++ selectOptionIdText s q.id,
               VoteCount := ((((s.votes.filter (fun v => v.poll_id == q.id)).map
                 (fun v => v.id)).dedup.length : Nat) : Int) } := by
    simp only [scanPollWithOptions, scanPollSummary, summaryRow, hu, Option.map_some']
  exact ⟨_, hscan, rfl⟩

theorem scan_inv (s : Store) (q : PollRow) (e : Poll)
    (h : scanPollWithOptions s (summaryRow s q) = some e) :
    e.ID = q.id ∧
    e.VoteCount = ((((s.votes.filter (fun v => v.poll_id == q.id)).map
      (fun v => v.id)).dedup.length : Nat) : Int) ∧
    hasUser s q.user_id = true := by
  unfold scanPollWithOptions scanPollSummary summaryRow at h
  cases hu : s.users.find? (fun u => u.id == q.user_id) with
  | none => simp [hu] at h
  | some u =>
    simp only [hu, Option.map_some', Option.some.injEq] at h
    subst h
    refine ⟨rfl, rfl, ?_⟩
    unfold hasUser
    have hpu : (u.id == q.user_id) = true :=
      List.find?_some (p := fun u : UserRow => u.id == q.user_id) hu
    exact List.any_eq_true.mpr ⟨u, List.mem_of_find?_eq_some hu, hpu⟩

theorem filterMap_ids {l : List PollRow} {f : PollRow → Option Poll}
    (h : ∀ q ∈ l, ∃ e, f q = some e ∧ e.ID = q.id) :
    (l.filterMap f).map (fun e => e.ID) = l.map (fun q => q.id) := by
  induction l with
  | nil => rfl
  | cons a l ih =>
    obtain ⟨e, he, hid⟩ := h a (List.mem_cons_self _ _)
    have ih' := ih (fun q hq => h q (List.mem_cons_of_mem _ hq))
    simp only [List.filterMap_cons, he, List.map_cons, ih', hid]

theorem orderBy_perm (l : List PollRow) : (orderByCreatedAtDesc l).Perm l :=
  List.perm_insertionSort _ l

theorem orderBy_sorted (l : List PollRow) :
    (orderByCreatedAtDesc l).Sorted (fun a b => b.created_at ≤ a.created_at) := by
  haveI : IsTotal PollRow (fun a b => b.created_at ≤ a.created_at) :=
    ⟨fun a b => Nat.le_total b.created_at a.created_at⟩
  haveI : IsTrans PollRow (fun a b => b.created_at ≤ a.created_at) :=
    ⟨fun _ _ _ hab hbc => Nat.le_trans hbc hab⟩
  exact List.sorted_insertionSort _ l

/-- C6 as stated fails at two inputs: with one poll (owner registered) and page
922337203685477582 the offset computation `(page - 1) * 10` leaves the range of `int`,
SQLite reads the negative offset as 0 and one poll is returned where the formula gives 0;
with one poll whose owner is not registered, page 1 returns no poll where the formula
gives 1. -/
theorem C6_counterexample :
    (((getPollsHandler (manyPolls 1) 922337203685477582).listed.length : Int)
      ≠ min 10 (max 0 (((manyPolls 1).polls.length : Int)
          - 10 * (max 922337203685477582 1 - 1)))) ∧
    (((getPollsHandler ownerlessPoll 1).listed.length : Int)
      ≠ min 10 (max 0 ((ownerlessPoll.polls.length : Int) - 10 * (max 1 1 - 1)))) := by
  decide

/-- C6 (amended): for every store holding n polls in which the owner of every poll is a
registered user, and every requested page value p with max(p, 1) at most
922337203685477581 (an absent or unparsable value is read as 0): with p' = max(p, 1),
ListPolls returns exactly min(10, max(0, n - 10*(p'-1))) polls, namely those at positions
10*(p'-1) .. 10*(p'-1)+9 of the polls ordered by creation time descending, and reports
total = n, page = p' and limit = 10; and any page below 1 returns the same response as
page 1. -/
theorem C6_listPolls_page (s : Store) (p : Int)
    (hown : ∀ q ∈ s.polls, hasUser s q.user_id = true)
    (hp : p ≤ 922337203685477581) :
    (∃ polls,
      getPollsHandler s p = Response.polls polls s.polls.length (max p 1) 10 ∧
      polls.map (fun e => e.ID)
        = (((orderByCreatedAtDesc s.polls).drop (10 * (max p 1 - 1)).toNat).take 10).map
            (fun q => q.id) ∧
      (polls.length : Int) = min 10 (max 0 ((s.polls.length : Int) - 10 * (max p 1 - 1)))) ∧
    (orderByCreatedAtDesc s.polls).Perm s.polls ∧
    (orderByCreatedAtDesc s.polls).Sorted (fun a b => b.created_at ≤ a.created_at) ∧
    (p < 1 → getPollsHandler s p = getPollsHandler s 1) := by
  have hoff : wrapInt ((max p 1 - 1) * 10) = 10 * (max p 1 - 1) := by
    rw [wrapInt_of_range _ (by omega) (by omega)]
    ring
  have hscan : ∀ q ∈ ((orderByCreatedAtDesc s.polls).drop
      (10 * (max p 1 - 1)).toNat).take 10,
      ∃ e, scanPollWithOptions s (summaryRow s q) = some e ∧ e.ID = q.id := by
    intro q hq
    have hq' : q ∈ s.polls :=
      (orderBy_perm s.polls).subset (List.mem_of_mem_drop (List.mem_of_mem_take hq))
    exact scan_of_owner s q (hown q hq')
  have hids := filterMap_ids hscan
  refine ⟨⟨_, ?_, hids, ?_⟩, orderBy_perm _, orderBy_sorted _, ?_⟩
  · rw [getPollsHandler_eq, hoff]
  · have hlen := congrArg List.length hids
    simp only [List.length_map, List.length_take, List.length_drop] at hlen
    rw [hlen, (orderBy_perm s.polls).length_eq]
    omega
  · intro hlt
    rw [getPollsHandler_eq, getPollsHandler_eq]
    have : max p 1 = max 1 1 := by omega
    rw [this]

/-- C6 (amended) at 15 polls, page 2. -/
theorem C6_listPolls_page_witness :
    (∀ q ∈ (manyPolls 15).polls, hasUser (manyPolls 15) q.user_id = true) ∧
    (2 : Int) ≤ 922337203685477581 ∧
    (∃ polls,
      getPollsHandler (manyPolls 15) 2
        = Response.polls polls (manyPolls 15).polls.length (max 2 1) 10 ∧
      polls.map (fun e => e.ID)
        = (((orderByCreatedAtDesc (manyPolls 15).polls).drop
            (10 * (max 2 1 - 1) : Int).toNat).take 10).map (fun q => q.id) ∧
      (polls.length : Int)
        = min 10 (max 0 (((manyPolls 15).polls.length : Int) - 10 * (max 2 1 - 1)))) ∧
    (orderByCreatedAtDesc (manyPolls 15).polls).Perm (manyPolls 15).polls ∧
    (orderByCreatedAtDesc (manyPolls 15).polls).Sorted
      (fun a b => b.created_at ≤ a.created_at) ∧
    ((2 : Int) < 1 → getPollsHandler (manyPolls 15) 2 = getPollsHandler (manyPolls 15) 1) :=
  ⟨by decide, by decide, C6_listPolls_page (manyPolls 15) 2 (by decide) (by decide)⟩

set_option maxRecDepth 20000 in
/-- With 15 polls, page 1 lists the 10 newest and reports total 15, page 2 lists the
remaining 5, and pages 0 and -3 answer as page 1. -/
theorem listPolls_fifteen :
    (getPollsHandler (manyPolls 15) 1).listed.map (fun e => e.ID)
      = [15, 14, 13, 12, 11, 10, 9, 8, 7, 6] ∧
    (getPollsHandler (manyPolls 15) 2).listed.map (fun e => e.ID) = [5, 4, 3, 2, 1] ∧
    getPollsHandler (manyPolls 15) 1
      = Response.polls (getPollsHandler (manyPolls 15) 1).listed 15 1 10 ∧
    getPollsHandler (manyPolls 15) 2
      = Response.polls (getPollsHandler (manyPolls 15) 2).listed 15 2 10 ∧
    getPollsHandler (manyPolls 15) 0 = getPollsHandler (manyPolls 15) 1 ∧
    getPollsHandler (manyPolls 15) (-3) = getPollsHandler (manyPolls 15) 1 := by
  refine ⟨by decide, by decide, ?_, ?_, ?_, ?_⟩
  · rw [getPollsHandler_eq]; rfl
  · rw [getPollsHandler_eq]; rfl
  · rw [getPollsHandler_eq, getPollsHandler_eq]; rfl
  · rw [getPollsHandler_eq, getPollsHandler_eq]; rfl

/-! ## Vote counts -/

theorem filter_cons_length (p : VoteRow → Bool) (v : VoteRow) (vs : List VoteRow) :
    (((v :: vs).filter p).length : Int)
      = (if p v = true then 1 else 0) + ((vs.filter p).length : Int) := by
  cases h : p v with
  | true => simp [List.filter_cons, h]; ring
  | false => simp [List.filter_cons, h]

theorem sum_indicator {α : Type} (p : α → Bool) :
    ∀ l : List α, (l.map (fun a => if p a = true then (1 : Int) else 0)).sum
      = ((l.filter p).length : Int)
  | [] => rfl
  | a :: l => by
    have ih := sum_indicator p l
    cases h : p a with
    | true => simp [List.filter_cons, h, ih]; ring
    | false => simp [List.filter_cons, h, ih]

/-- The options of poll P that a vote's option_id names: exactly one when the vote is a
vote on P, none otherwise. -/
theorem named_options_of_poll (opts : List OptionRow) (P : Int) (v : VoteRow)
    (hpk : (opts.map (fun o => o.id)).Nodup)
    (href : ∃ o ∈ opts, o.id = v.option_id ∧ o.poll_id = v.poll_id) :
    ((((opts.filter (fun o => o.poll_id == P)).filter
        (fun o => v.option_id == o.id)).length : Nat) : Int)
      = if (v.poll_id == P) = true then 1 else 0 := by
  obtain ⟨o, ho, hid, hpoll⟩ := href
  have hle := filter_length_le_one_of_nodup_key (fun o : OptionRow => o.id)
    (fun o => v.option_id == o.id) v.option_id
    (by intro a ha; simpa using (Eq.symm (by simpa using ha : v.option_id = a.id)))
    opts hpk
  have hany : opts.any (fun o => v.option_id == o.id) = true :=
    List.any_eq_true.mpr ⟨o, ho, by simp [hid]⟩
  obtain ⟨o', ho'⟩ := filter_eq_singleton_of_any _ _ hany hle
  have hoo : o' = o := by
    have hmem : o ∈ opts.filter (fun o => v.option_id == o.id) :=
      List.mem_filter.mpr ⟨ho, by simp [hid]⟩
    rw [ho'] at hmem
    exact (List.mem_singleton.mp hmem).symm
  subst hoo
  rw [List.filter_comm, ho']
  cases h : (v.poll_id == P) with
  | true =>
    have : (o'.poll_id == P) = true := by rw [hpoll]; exact h
    simp [List.filter_cons, this]
  | false =>
    have : (o'.poll_id == P) = false := by rw [hpoll]; exact h
    simp [List.filter_cons, this]

/-- Summing, over the options of poll P, the votes naming each option counts the votes on
P, when every vote names an option of its own poll. -/
theorem option_counts_sum (opts : List OptionRow) (P : Int)
    (hpk : (opts.map (fun o => o.id)).Nodup) :
    ∀ votes : List VoteRow,
      (∀ v ∈ votes, ∃ o ∈ opts, o.id = v.option_id ∧ o.poll_id = v.poll_id) →
      ((opts.filter (fun o => o.poll_id == P)).map
          (fun o => (((votes.filter (fun v => v.option_id == o.id)).length : Nat) : Int))).sum
        = (((votes.filter (fun v => v.poll_id == P)).length : Nat) : Int)
  | [], _ => by simp
  | v :: vs, href => by
    have ih := option_counts_sum opts P hpk vs
      (fun w hw => href w (List.mem_cons_of_mem _ hw))
    have hv := named_options_of_poll opts P v hpk (href v (List.mem_cons_self _ _))
    rw [filter_cons_length (fun v => v.poll_id == P), ← ih, ← hv, ← sum_indicator,
      ← List.sum_map_add]
    congr 1
    apply List.map_congr_left
    intro o _
    exact filter_cons_length (fun w => w.option_id == o.id) v vs

theorem distinct_vote_ids (s : Store) (h : votesPK s) (P : Int) :
    ((s.votes.filter (fun v => v.poll_id == P)).map (fun v => v.id)).dedup.length
      = (s.votes.filter (fun v => v.poll_id == P)).length := by
  have hnd : ((s.votes.filter (fun v => v.poll_id == P)).map (fun v => v.id)).Nodup :=
    List.Nodup.sublist (List.Sublist.map _ (List.filter_sublist _)) h
  rw [List.Nodup.dedup hnd, List.length_map]

theorem getPollHandler_found (s : Store) (P : Int) (hexists : hasPoll s P = true)
    (howner : ∀ q ∈ s.polls, q.id = P → hasUser s q.user_id = true) :
    ∃ (q : PollRow) (u : UserRow), q ∈ s.polls ∧ q.id = P ∧
      getPollHandler s P
        = Response.poll
            { ID := q.id, Title := q.title, Description := q.description,
              UserID := q.user_id, Username := u.username, CreatedAt := some q.created_at,
              Options := selectOptionsWithCounts s P,
              VoteCount := (((s.votes.filter (fun v => v.poll_id == P)).length : Nat) : Int) } := by
  unfold hasPoll at hexists
  rw [List.any_eq_true] at hexists
  obtain ⟨q, hq⟩ := Option.isSome_iff_exists.mp (List.find?_isSome.mpr hexists)
  have hqmem : q ∈ s.polls := List.mem_of_find?_eq_some hq
  have hqid : q.id = P := by
    have := List.find?_some (p := fun p : PollRow => p.id == P) hq
    simpa using this
  have hu := howner q hqmem hqid
  unfold hasUser at hu
  rw [List.any_eq_true] at hu
  obtain ⟨u, hu⟩ := Option.isSome_iff_exists.mp (List.find?_isSome.mpr hu)
  refine ⟨q, u, hqmem, hqid, ?_⟩
  simp only [getPollHandler, hq, hu]

/-- C10: for every store (with primary keys on options and votes) in which every vote
row's option_id names an option whose poll_id equals the vote's poll_id, and every
existing poll P with a registered owner: GetPoll(P) succeeds, the poll vote_count it
returns equals the sum of the vote_count values of the options it returns, every entry
for P on any page of ListPolls reports the same vote_count, and the row of P in the
listing query scans to such an entry. -/
theorem C10_vote_counts_agree (s : Store) (P : Int)
    (href : ∀ v ∈ s.votes, ∃ o ∈ s.options, o.id = v.option_id ∧ o.poll_id = v.poll_id)
    (hexists : hasPoll s P = true)
    (howner : ∀ q ∈ s.polls, q.id = P → hasUser s q.user_id = true)
    (hopk : optionsPK s) (hvpk : votesPK s) :
    ∃ poll, getPollHandler s P = Response.poll poll ∧ poll.ID = P ∧
      poll.VoteCount = (poll.Options.map (fun o => o.VoteCount)).sum ∧
      (∀ page, ∀ e ∈ (getPollsHandler s page).listed, e.ID = P →
        e.VoteCount = poll.VoteCount) ∧
      (∃ q ∈ s.polls, q.id = P ∧
        ∃ e, scanPollWithOptions s (summaryRow s q) = some e ∧ e.ID = P ∧
          e.VoteCount = poll.VoteCount) := by
  obtain ⟨q, u, hqmem, hqid, hget⟩ := getPollHandler_found s P hexists howner
  refine ⟨_, hget, hqid, ?_, ?_, ?_⟩
  · show _ = ((selectOptionsWithCounts s P).map (fun o => o.VoteCount)).sum
    unfold selectOptionsWithCounts
    rw [List.map_map]
    exact (option_counts_sum s.options P hopk s.votes href).symm
  · intro page e he hid
    rw [getPollsHandler_eq] at he
    simp only [Response.listed] at he
    obtain ⟨q', _, hscan⟩ := List.mem_filterMap.mp he
    obtain ⟨hid', hcount, _⟩ := scan_inv s q' e hscan
    rw [hcount, distinct_vote_ids s hvpk, ← hid', hid]
  · obtain ⟨e, hscan, hid⟩ := scan_of_owner s q (howner q hqmem hqid)
    refine ⟨q, hqmem, hqid, e, hscan, hid.trans hqid, ?_⟩
    rw [(scan_inv s q e hscan).2.1, distinct_vote_ids s hvpk, hqid]

/-- C10 at a concrete store: alice's poll 1 with her vote. -/
theorem C10_vote_counts_agree_witness :
    (∀ v ∈ pollWithVote.votes,
      ∃ o ∈ pollWithVote.options, o.id = v.option_id ∧ o.poll_id = v.poll_id) ∧
    hasPoll pollWithVote 1 = true ∧
    (∀ q ∈ pollWithVote.polls, q.id = 1 → hasUser pollWithVote q.user_id = true) ∧
    optionsPK pollWithVote ∧ votesPK pollWithVote ∧
    ∃ poll, getPollHandler pollWithVote 1 = Response.poll poll ∧ poll.ID = 1 ∧
      poll.VoteCount = (poll.Options.map (fun o => o.VoteCount)).sum ∧
      (∀ page, ∀ e ∈ (getPollsHandler pollWithVote page).listed, e.ID = 1 →
        e.VoteCount = poll.VoteCount) ∧
      (∃ q ∈ pollWithVote.polls, q.id = 1 ∧
        ∃ e, scanPollWithOptions pollWithVote (summaryRow pollWithVote q) = some e ∧
          e.ID = 1 ∧ e.VoteCount = poll.VoteCount) :=
  ⟨by decide, by decide, by decide, by unfold optionsPK; decide, by unfold votesPK; decide,
   C10_vote_counts_agree pollWithVote 1 (by decide) (by decide) (by decide)
    (by unfold optionsPK; decide) (by unfold votesPK; decide)⟩

/-! ## A new poll in a store that honours the declared references -/

theorem not_hasPoll_nextRowid (s : Store) :
    hasPoll s (nextRowid s.seq.polls (s.polls.map (fun q => q.id))) = false := by
  unfold hasPoll
  rw [List.any_eq_false]
  intro q hq hbeq
  apply nextRowid_not_mem s.seq.polls (s.polls.map (fun q => q.id))
  rw [← (by simpa using hbeq : q.id = nextRowid s.seq.polls (s.polls.map (fun q => q.id)))]
  exact List.mem_map_of_mem _ hq

/-- Where the references the schema declares hold (every vote names an existing poll and
an existing option, every option an existing poll), a poll created by a registered user
is fetched with exactly the submitted options, each with vote_count 0, and a poll
vote_count of 0. -/
theorem createPoll_then_getPoll_zero (s : Store) (req : CreatePollReq) (now : Nat)
    (hU : hasUser s req.user_id = true)
    (hv : ∀ v ∈ s.votes, hasPoll s v.poll_id = true ∧ hasOption s v.option_id = true)
    (ho : ∀ o ∈ s.options, hasPoll s o.poll_id = true) :
    ∃ (pid : Int) (uname : String) (opts : List PollOption),
      (createPollHandler s Method.POST (.ok req) noFault now).2
        = Response.poll { ID := pid, Title := req.title, Description := req.description,
                          UserID := req.user_id, Username := uname, CreatedAt := some now,
                          Options := [], VoteCount := 0 } ∧
      getPollHandler (createPollHandler s Method.POST (.ok req) noFault now).1 pid
        = Response.poll { ID := pid, Title := req.title, Description := req.description,
                          UserID := req.user_id, Username := uname, CreatedAt := some now,
                          Options := opts, VoteCount := 0 } ∧
      opts.map (fun o => o.Text) = req.options ∧
      ∀ o ∈ opts, o.VoteCount = 0 := by
  obtain ⟨tx', rows, hres, hp, hopt, htext, hpoll, _, hfresh, hu, hvotes, _⟩ :=
    createPollHandler_success s req noFault now (fun _ _ => rfl)
  have hnew := not_hasPoll_nextRowid s
  generalize nextRowid s.seq.polls (s.polls.map (fun q => q.id)) = pid at *
  -- the poll row and its owner
  have hfindP : tx'.polls.find? (fun p => p.id == pid)
      = some { id := pid, title := req.title, description := req.description,
               user_id := req.user_id, created_at := now } := by
    have hnone : s.polls.find? (fun p => p.id == pid) = none := by
      rw [List.find?_eq_none]
      intro q hq
      unfold hasPoll at hnew
      simpa using (List.any_eq_false.mp hnew) q hq
    rw [hp, List.find?_append, hnone]
    simp
  unfold hasUser at hU
  rw [List.any_eq_true] at hU
  obtain ⟨u, hfindU⟩ := Option.isSome_iff_exists.mp (List.find?_isSome.mpr hU)
  rw [← hu] at hfindU
  -- no vote on the new poll, no vote for a new option, no older option of the new poll
  have hvotesP : tx'.votes.filter (fun v => v.poll_id == pid) = [] := by
    rw [hvotes, List.filter_eq_nil_iff]
    intro v hvm hbeq
    have h1 := (hv v hvm).1
    rw [(by simpa using hbeq : v.poll_id = pid), hnew] at h1
    exact Bool.noConfusion h1
  have hvotesO : ∀ o ∈ rows, tx'.votes.filter (fun v => v.option_id == o.id) = [] := by
    intro o hor
    rw [hvotes, List.filter_eq_nil_iff]
    intro v hvm hbeq
    have h2 := (hv v hvm).2
    unfold hasOption at h2
    obtain ⟨o', ho', hid⟩ := List.any_eq_true.mp h2
    apply hfresh o hor
    rw [← (by simpa using hbeq : v.option_id = o.id),
      ← (by simpa using hid : o'.id = v.option_id)]
    exact List.mem_map_of_mem _ ho'
  have hoptsP : tx'.options.filter (fun o => o.poll_id == pid) = rows := by
    have hold : s.options.filter (fun o => o.poll_id == pid) = [] := by
      rw [List.filter_eq_nil_iff]
      intro o hom hbeq
      have h3 := ho o hom
      rw [(by simpa using hbeq : o.poll_id = pid), hnew] at h3
      exact Bool.noConfusion h3
    have hrows : rows.filter (fun o => o.poll_id == pid) = rows := by
      rw [List.filter_eq_self]
      intro o hor
      simpa using hpoll o hor
    rw [hopt, List.filter_append, hold, hrows, List.nil_append]
  refine ⟨pid, u.username,
    rows.map (fun o => { ID := o.id, PollID := 0, Text := o.text, VoteCount := 0 }),
    ?_, ?_, ?_, ?_⟩
  · rw [hres]
    simp only [refetchPoll, hfindP, hfindU]
  · rw [hres]
    simp only [getPollHandler, hfindP, hfindU, selectOptionsWithCounts, hoptsP, hvotesP]
    have hmap : rows.map (fun o => PollOption.mk o.id 0 o.text
          (((tx'.votes.filter (fun v => v.option_id == o.id)).length : Nat) : Int))
        = rows.map (fun o => PollOption.mk o.id 0 o.text 0) := by
      apply List.map_congr_left
      intro o hor
      rw [hvotesO o hor]
      rfl
    rw [hmap]
    rfl
  · rw [List.map_map]
    exact htext
  · intro o hom
    obtain ⟨r, _, rfl⟩ := List.mem_map.mp hom
    rfl

/-! ## Where a poll is listed -/

theorem mem_window {α : Type} (l : List α) (k off : Nat) (q : α) (h : l[k]? = some q)
    (h1 : off ≤ k) (h2 : k < off + 10) : q ∈ (l.drop off).take 10 := by
  rw [List.mem_iff_getElem?]
  refine ⟨k - off, ?_⟩
  rw [List.getElem?_take_of_lt (by omega), List.getElem?_drop, ← h]
  congr 1
  omega

/-- A poll whose owner is registered is on one of the pages of `getPollsHandler` (the
table holding fewer than 2^63 rows, as every SQLite table does). -/
theorem listed_on_some_page (s : Store) (q : PollRow) (hq : q ∈ s.polls)
    (hown : hasUser s q.user_id = true) (hlen : s.polls.length < 9223372036854775808) :
    ∃ (page : Int) (e : Poll), e ∈ (getPollsHandler s page).listed ∧ e.ID = q.id := by
  have hq' : q ∈ orderByCreatedAtDesc s.polls := (orderBy_perm s.polls).symm.subset hq
  obtain ⟨k, hk⟩ := List.mem_iff_getElem?.mp hq'
  have hklt : k < s.polls.length := by
    rw [← (orderBy_perm s.polls).length_eq]
    by_contra hge
    rw [List.getElem?_eq_none (by omega)] at hk
    exact Option.noConfusion hk
  obtain ⟨e, he, hid⟩ := scan_of_owner s q hown
  refine ⟨((k / 10 : Nat) : Int) + 1, e, ?_, hid⟩
  rw [getPollsHandler_eq]
  have hmax : max (((k / 10 : Nat) : Int) + 1) 1 = ((k / 10 : Nat) : Int) + 1 := by omega
  have hoff : (wrapInt ((max (((k / 10 : Nat) : Int) + 1) 1 - 1) * 10)).toNat
      = 10 * (k / 10) := by
    rw [hmax, wrapInt_of_range _ (by omega) (by omega)]
    omega
  rw [hoff]
  exact List.mem_filterMap.mpr ⟨q, mem_window _ k _ q hk (by omega) (by omega), he⟩

/-- After `deletePollHandler` no page of `getPollsHandler` lists the poll. -/
theorem deletePollHandler_then_listPolls (s : Store) (P page : Int) :
    ∀ e ∈ (getPollsHandler (deletePollHandler s Method.DELETE P).1 page).listed,
      e.ID ≠ P := by
  intro e he
  rw [getPollsHandler_eq] at he
  obtain ⟨q, hq, hscan⟩ := List.mem_filterMap.mp he
  have hq' : q ∈ (deletePollHandler s Method.DELETE P).1.polls :=
    (orderBy_perm _).subset (List.mem_of_mem_drop (List.mem_of_mem_take hq))
  rw [(scan_inv _ q e hscan).1]
  exact (deletePollHandler_then_getPoll s P).1 q hq'

/-! ## Every reachable store satisfies the uniqueness constraints -/

theorem insertUser_tables {s s' : Store} {username email password : String} {now : Nat}
    {id : Int} (h : insertUser s username email password now = .ok (s', id)) :
    s'.options = s.options ∧ s'.bookmarks = s.bookmarks := by
  unfold insertUser at h
  split at h
  · cases h
  · split at h
    · cases h
    · simp only [Except.ok.injEq, Prod.mk.injEq] at h
      rw [← h.1]
      exact ⟨rfl, rfl⟩

theorem registerHandler_schemaOK (s : Store) (m : Method) (body : Except String RegisterReq)
    (hashed : Except String String) (now : Nat) (h : schemaOK s) :
    schemaOK (registerHandler s m body hashed now).1 := by
  have hv := registerHandler_votes s m body hashed now
  have ht : (registerHandler s m body hashed now).1.options = s.options ∧
      (registerHandler s m body hashed now).1.bookmarks = s.bookmarks := by
    unfold registerHandler
    repeat' split
    all_goals first | exact ⟨rfl, rfl⟩ | exact insertUser_tables ‹_›
  unfold schemaOK votesUnique votesPK bookmarksUnique optionsPK at *
  rw [hv, ht.1, ht.2]
  exact h

theorem createPollHandler_schemaOK (s : Store) (m : Method)
    (body : Except String CreatePollReq) (fault : Nat → Option String) (now : Nat)
    (h : schemaOK s) : schemaOK (createPollHandler s m body fault now).1 := by
  have hv := createPollHandler_votes s m body fault now
  have ht : (createPollHandler s m body fault now).1.bookmarks = s.bookmarks ∧
      ((createPollHandler s m body fault now).1.options.map (fun o => o.id)).Nodup := by
    unfold createPollHandler
    split
    · exact ⟨rfl, h.2.2.2⟩
    · split
      · exact ⟨rfl, h.2.2.2⟩
      · split
        · exact ⟨rfl, h.2.2.2⟩
        · rw [insertPoll_off]
          simp only []
          rcases insertOptions_spec fault _ _ 1 _ with
            ⟨e, i, _, _, hres⟩ | ⟨tx', rows, hres, _, _, _, _, _, _, _, hb⟩
          · rw [hres]
            exact ⟨rfl, h.2.2.2⟩
          · obtain ⟨rows', hopt, hnd, hfresh⟩ := insertOptions_fresh fault _ _ 1 _ _ hres
            rw [hres]
            refine ⟨hb, ?_⟩
            show (tx'.options.map (fun o => o.id)).Nodup
            rw [hopt, List.map_append, List.nodup_append]
            refine ⟨h.2.2.2, hnd, ?_⟩
            intro x hx hx'
            obtain ⟨o, ho, rfl⟩ := List.mem_map.mp hx'
            exact hfresh o ho hx
  unfold schemaOK votesUnique votesPK bookmarksUnique optionsPK at *
  rw [hv, ht.1]
  exact ⟨h.1, h.2.1, h.2.2.1, ht.2⟩

theorem voteWrite_schemaOK (s : Store) (req : VoteReq) (existing : Bool) (now : Nat)
    (h : schemaOK s) : schemaOK (voteWrite s req existing now).1 := by
  refine ⟨votesUnique_voteWrite s req existing now h.1, ?_, ?_, ?_⟩
  · cases existing with
    | true =>
      rw [voteWrite_existing]
      have hids : (s.votes.map (fun v =>
          if v.user_id == req.user_id && v.poll_id == req.poll_id then
            { v with option_id := req.option_id } else v)).map (fun v => v.id)
          = s.votes.map (fun v => v.id) := by
        rw [List.map_map]
        apply List.map_congr_left
        intro v _
        simp only [Function.comp]
        split <;> rfl
      unfold votesPK
      rw [hids]
      exact h.2.1
    | false =>
      cases hany : s.votes.any
          (fun v => v.user_id == req.user_id && v.poll_id == req.poll_id) with
      | true => rw [voteWrite_conflict s req now hany]; exact h.2.1
      | false =>
        rw [voteWrite_fresh s req now hany]
        unfold votesPK
        simp only [List.map_append, List.map_cons, List.map_nil]
        rw [List.nodup_append]
        refine ⟨h.2.1, List.nodup_singleton _, ?_⟩
        intro x hx hx'
        rw [List.mem_singleton] at hx'
        subst hx'
        exact nextRowid_not_mem _ _ hx
  · have : (voteWrite s req existing now).1.bookmarks = s.bookmarks := by
      cases existing with
      | true => rw [voteWrite_existing]
      | false =>
        cases hany : s.votes.any
            (fun v => v.user_id == req.user_id && v.poll_id == req.poll_id) with
        | true => rw [voteWrite_conflict s req now hany]
        | false => rw [voteWrite_fresh s req now hany]
    unfold bookmarksUnique
    rw [this]
    exact h.2.2.1
  · have : (voteWrite s req existing now).1.options = s.options := by
      cases existing with
      | true => rw [voteWrite_existing]
      | false =>
        cases hany : s.votes.any
            (fun v => v.user_id == req.user_id && v.poll_id == req.poll_id) with
        | true => rw [voteWrite_conflict s req now hany]
        | false => rw [voteWrite_fresh s req now hany]
    unfold optionsPK
    rw [this]
    exact h.2.2.2

theorem voteHandler_schemaOK (s : Store) (m : Method) (body : Except String VoteReq)
    (now : Nat) (h : schemaOK s) : schemaOK (voteHandler s m body now).1 := by
  unfold voteHandler
  split
  · exact h
  · split
    · exact h
    · exact voteWrite_schemaOK s _ _ now h

theorem insertOrIgnoreBookmark_schemaOK {fk : Bool} {s s' : Store} {user_id poll_id : Int}
    {now : Nat} (h : insertOrIgnoreBookmark fk s user_id poll_id now = .ok s')
    (hs : schemaOK s) : schemaOK s' := by
  unfold insertOrIgnoreBookmark at h
  simp only [] at h
  split at h
  · simp only [Except.ok.injEq] at h
    rw [← h]
    exact hs
  · rename_i hany
    split at h
    · cases h
    · simp only [Except.ok.injEq] at h
      rw [← h]
      refine ⟨hs.1, hs.2.1, ?_, hs.2.2.2⟩
      unfold bookmarksUnique
      simp only [List.map_append, List.map_cons, List.map_nil]
      rw [List.nodup_append]
      refine ⟨hs.2.2.1, List.nodup_singleton _, ?_⟩
      intro x hx hx'
      rw [List.mem_singleton] at hx'
      subst hx'
      obtain ⟨b, hb, hkey⟩ := List.mem_map.mp hx
      simp only [Prod.mk.injEq] at hkey
      apply hany
      exact List.any_eq_true.mpr ⟨b, hb, by simp [hkey.1, hkey.2]⟩

theorem bookmarkHandler_schemaOK (s : Store) (m : Method)
    (body : Except String BookmarkReq) (now : Nat) (h : schemaOK s) :
    schemaOK (bookmarkHandler s m body now).1 := by
  unfold bookmarkHandler
  repeat' split
  all_goals first
    | exact h
    | exact insertOrIgnoreBookmark_schemaOK ‹_› h
    | exact ⟨h.1, h.2.1,
        List.Nodup.sublist (List.Sublist.map _ (List.filter_sublist _)) h.2.2.1, h.2.2.2⟩

theorem deletePollHandler_schemaOK (s : Store) (m : Method) (pollID : Int)
    (h : schemaOK s) : schemaOK (deletePollHandler s m pollID).1 := by
  unfold deletePollHandler deletePoll foreignKeys
  split
  · exact h
  · exact h

theorem handle_schemaOK (s : Store) (c : Call) (h : schemaOK s) :
    schemaOK (c.handle s).1 := by
  cases c with
  | register m body hashed now => exact registerHandler_schemaOK s m body hashed now h
  | createPoll m body fault now => exact createPollHandler_schemaOK s m body fault now h
  | vote m body now => exact voteHandler_schemaOK s m body now h
  | bookmark m body now => exact bookmarkHandler_schemaOK s m body now h
  | deletePoll m pollID => exact deletePollHandler_schemaOK s m pollID h

/-- Every store reached from a fresh database by handler calls satisfies the uniqueness
constraints assumed of a store in the statements above. -/
theorem reachable_schemaOK (calls : List Call) : schemaOK (runCalls initDB calls) := by
  have hinit : schemaOK initDB :=
    ⟨List.nodup_nil, List.nodup_nil, List.nodup_nil, List.nodup_nil⟩
  suffices hgen : ∀ (cs : List Call) (s : Store), schemaOK s → schemaOK (runCalls s cs) from
    hgen calls initDB hinit
  intro cs
  induction cs with
  | nil => intro s h; exact h
  | cons c rest ih =>
    intro s h
    exact ih _ (handle_schemaOK s c h)

end PollsAndGames
